import Mathlib

/-!
# The copy reconciler of quarks-secret

A shallow embedding of `pkg/kube/controllers/quarkssecret/copy_reconciler.go`.

The cluster behind `r.client` is an explicit `World`: the stored Secrets and
QuarksSecrets, the outcomes scheduled for the coming API calls (so that any
pattern of transport failures can be expressed) and the record of the calls
issued so far.  Every Go method that talks to the client takes a `World` and
returns its Go results together with the next `World`.  Go pointers that may be
nil are `Option`s, Go `error` values are `Option Err`, and a nil pointer
dereference is the outcome `Outcome.panic`.

Calls to `ctxlog` (logging and event recording) have no effect on the values
and objects studied here and are left out.
-/

namespace quarkssecret

/-! ## Data model -/

/-- Go `map[string]string`; `none` is the nil map.  Secret data
(`map[string][]byte`) uses the same type, a value standing for a byte string. -/
abbrev GoMap := Option (List (String × String))

/-- The comma-ok lookup `v, ok := m[k]`. -/
def GoMap.lookup (m : GoMap) (k : String) : Option String :=
  match m with
  | none => none
  | some kvs => kvs.lookup k

/-- The index expression `m[k]`: the zero value `""` when the key is absent. -/
def GoMap.index (m : GoMap) (k : String) : String :=
  (GoMap.lookup m k).getD ""

/-- The assignment `m[k] = v`; on the nil map Go panics, which no caller here reaches since
each one guards the map first, and the model then starts from the empty map. -/
def GoMap.assign (m : GoMap) (k v : String) : GoMap :=
  match m with
  | none => some [(k, v)]
  | some kvs => some ((k, v) :: kvs.filter (fun kv => kv.1 != k))

/-- Go `len(m)`: the number of entries, zero for the nil map. -/
def GoMap.len (m : GoMap) : Nat :=
  match m with
  | none => 0
  | some kvs => kvs.length

/-- The guard `if annotations == nil { annotations = map[string]string{} }`. -/
def GoMap.orEmpty (m : GoMap) : GoMap :=
  match m with
  | none => some []
  | some kvs => some kvs

/-- Go `types.NamespacedName`. -/
structure NamespacedName where
  Namespace : String
  Name : String
deriving DecidableEq, Repr

/-- The part of `metav1.OwnerReference` that identifies the owner. -/
structure OwnerReference where
  Kind : String
  Name : String
  Controller : Bool
deriving DecidableEq, Repr

/-- Go `corev1.Secret` (metadata flattened). -/
structure Secret where
  Name : String
  Namespace : String
  Labels : GoMap
  Annotations : GoMap
  OwnerReferences : List OwnerReference
  Data : GoMap
deriving DecidableEq, Repr

/-- Go `qsv1a1.Copy`: where a replica should land. -/
structure Copy where
  Name : String
  Namespace : String
deriving DecidableEq, Repr

/-- Go `qsv1a1.QuarksSecretSpec` (field `Type` is named after its Go type). -/
structure QuarksSecretSpec where
  SecretType : String
  SecretName : String
  Copies : List Copy
deriving DecidableEq, Repr

/-- Go `qsv1a1.QuarksSecretStatus`; both flags are `*bool`. -/
structure QuarksSecretStatus where
  Generated : Option Bool
  Copied : Option Bool
deriving DecidableEq, Repr

/-- Go `qsv1a1.QuarksSecret` (metadata flattened). -/
structure QuarksSecret where
  Name : String
  Namespace : String
  Annotations : GoMap
  Spec : QuarksSecretSpec
  Status : QuarksSecretStatus
deriving DecidableEq, Repr

/-- The annotation key `qsv1a1.AnnotationCopyOf`, as the integration test spells it. -/
def AnnotationCopyOf : String := "quarks.cloudfoundry.org/secret-copy-of"

/-- The secret type `qsv1a1.SecretCopy`. -/
def SecretCopy : String := "copy"

/-- Modelled from the spec: `QuarksSecret.GetNamespacedName` (package `qsv1a1`, not among the
sources) renders the identity as `<namespace>/<name>`. -/
def QuarksSecret.GetNamespacedName (qs : QuarksSecret) : String :=
  qs.Namespace ++ "/" ++ qs.Name

/-- The zero value `&corev1.Secret{}`. -/
def Secret.zero : Secret :=
  { Name := "", Namespace := "", Labels := none, Annotations := none,
    OwnerReferences := [], Data := none }

/-- The zero value `&qsv1a1.QuarksSecret{}`. -/
def QuarksSecret.zero : QuarksSecret :=
  { Name := "", Namespace := "", Annotations := none,
    Spec := { SecretType := "", SecretName := "", Copies := [] },
    Status := { Generated := none, Copied := none } }

/-- `client.ObjectKeyFromObject` for a Secret. -/
def Secret.key (s : Secret) : NamespacedName :=
  { Namespace := s.Namespace, Name := s.Name }

/-- `client.ObjectKeyFromObject` for a QuarksSecret. -/
def QuarksSecret.key (q : QuarksSecret) : NamespacedName :=
  { Namespace := q.Namespace, Name := q.Name }

/-! ## Errors and outcomes -/

/-- Go `error` values that the reconciler can see. -/
inductive Err where
  | NotFound : Err
  | AlreadyExists : Err
  | AlreadyOwned : Err
  | MutateKey : Err
  | Other : String → Err
  | Wrap : Err → String → Err
deriving DecidableEq, Repr

/-- `apierrors.IsNotFound`: the error itself carries the not-found reason. -/
def IsNotFound (err : Err) : Bool :=
  match err with
  | Err.NotFound => true
  | _ => false

/-- What a Go call does: it returns, or the goroutine panics. -/
inductive Outcome (α : Type) where
  | ret : α → Outcome α
  | panic : String → Outcome α
deriving DecidableEq, Repr

/-- `controllerutil.OperationResult`. -/
inductive OperationResult where
  | None
  | Created
  | Updated
deriving DecidableEq, Repr

/-- The string value of an `OperationResult`. -/
def OperationResult.toString : OperationResult → String
  | OperationResult.None => "unchanged"
  | OperationResult.Created => "created"
  | OperationResult.Updated => "updated"

/-! ## The cluster client -/

/-- The API calls of `client.Client` that the reconciler issues. -/
inductive Call where
  | GetQuarksSecret : NamespacedName → Call
  | GetSecret : NamespacedName → Call
  | CreateSecret : Secret → Call
  | UpdateSecret : Secret → Call
  | StatusUpdate : QuarksSecret → Call
deriving DecidableEq, Repr

/-- Whether a call writes a Secret. -/
def Call.isSecretWrite : Call → Bool
  | Call.CreateSecret _ => true
  | Call.UpdateSecret _ => true
  | _ => false

/-- Whether a call reads or writes anything in the namespace `ns`. -/
def Call.touches (ns : String) : Call → Bool
  | Call.GetQuarksSecret k => k.Namespace == ns
  | Call.GetSecret k => k.Namespace == ns
  | Call.CreateSecret s => s.Namespace == ns
  | Call.UpdateSecret s => s.Namespace == ns
  | Call.StatusUpdate q => q.Namespace == ns

/-- The cluster as seen through `r.client`.  `faults` schedules the coming API calls: the n-th
entry `some msg` makes the n-th call fail with the transport error `msg` (a deadline that
expired, a conflict, a network failure); `none`, or the end of the list, lets the call reach the
store.  `log` lists the calls issued, oldest first. -/
structure World where
  secrets : NamespacedName → Option Secret
  quarksSecrets : NamespacedName → Option QuarksSecret
  faults : List (Option String)
  log : List Call

/-- Store `v` under `key`. -/
def Store.set {α : Type} (st : NamespacedName → Option α) (key : NamespacedName) (v : α) :
    NamespacedName → Option α :=
  fun k => if k = key then some v else st k

/-- One API round trip: the call is recorded and the next scheduled outcome is consumed. -/
def World.call (w : World) (c : Call) : Option String × World :=
  (w.faults.head?.join, { w with faults := w.faults.tail, log := w.log ++ [c] })

/-- The next `n` API calls reach the store. -/
def World.served (w : World) (n : Nat) : Prop :=
  ∀ f ∈ w.faults.take n, f = none

instance (w : World) (n : Nat) : Decidable (World.served w n) := by
  unfold World.served; infer_instance

/-- `client.Get` of a QuarksSecret. -/
def Client.GetQuarksSecret (key : NamespacedName) (w : World) : Except Err QuarksSecret × World :=
  match World.call w (Call.GetQuarksSecret key) with
  | (some msg, w1) => (Except.error (Err.Other msg), w1)
  | (none, w1) =>
    match w.quarksSecrets key with
    | none => (Except.error Err.NotFound, w1)
    | some q => (Except.ok q, w1)

/-- `client.Get` of a Secret. -/
def Client.GetSecret (key : NamespacedName) (w : World) : Except Err Secret × World :=
  match World.call w (Call.GetSecret key) with
  | (some msg, w1) => (Except.error (Err.Other msg), w1)
  | (none, w1) =>
    match w.secrets key with
    | none => (Except.error Err.NotFound, w1)
    | some s => (Except.ok s, w1)

/-- `client.Create` of a Secret: refused when an object of that name exists. -/
def Client.CreateSecret (obj : Secret) (w : World) : Option Err × World :=
  match World.call w (Call.CreateSecret obj) with
  | (some msg, w1) => (some (Err.Other msg), w1)
  | (none, w1) =>
    match w.secrets (Secret.key obj) with
    | some _ => (some Err.AlreadyExists, w1)
    | none => (none, { w1 with secrets := Store.set w1.secrets (Secret.key obj) obj })

/-- `client.Update` of a Secret: the stored object is replaced by `obj`; not-found when there
is none to replace. -/
def Client.UpdateSecret (obj : Secret) (w : World) : Option Err × World :=
  match World.call w (Call.UpdateSecret obj) with
  | (some msg, w1) => (some (Err.Other msg), w1)
  | (none, w1) =>
    match w.secrets (Secret.key obj) with
    | none => (some Err.NotFound, w1)
    | some _ => (none, { w1 with secrets := Store.set w1.secrets (Secret.key obj) obj })

/-- `client.Status().Update` of a QuarksSecret: only the status of the stored object changes.
On success the object passed in is refreshed from the response. -/
def Client.StatusUpdate (obj : QuarksSecret) (w : World) :
    (Option Err × QuarksSecret) × World :=
  match World.call w (Call.StatusUpdate obj) with
  | (some msg, w1) => ((some (Err.Other msg), obj), w1)
  | (none, w1) =>
    match w.quarksSecrets (QuarksSecret.key obj) with
    | none => ((some Err.NotFound, obj), w1)
    | some stored =>
      let updated := { stored with Status := obj.Status }
      ((none, updated),
        { w1 with quarksSecrets := Store.set w1.quarksSecrets (QuarksSecret.key obj) updated })

/-! ## Collaborators from controller-runtime -/

/-- The helper `referSameObject` of `controllerutil`: two owner references name the same
object (the API group, which is the same for all references here, is not modelled). -/
def referSameObject (a b : OwnerReference) : Bool :=
  a.Kind == b.Kind && a.Name == b.Name

/-- The helper `upsertOwnerRef` of `controllerutil`: a reference to the same object is
replaced in place, otherwise the new reference is appended. -/
def upsertOwnerRef (ref : OwnerReference) : List OwnerReference → List OwnerReference
  | [] => [ref]
  | o :: rest => if referSameObject o ref then ref :: rest else o :: upsertOwnerRef ref rest

/-- The helper `validateOwner` of `controllerutil`: a namespaced owner must live in the
namespace of the object it owns. -/
def validateOwner (owner : QuarksSecret) (object : Secret) : Option Err :=
  if owner.Namespace != "" then
    if object.Namespace == "" then
      some (Err.Other "cluster-scoped resource must not have a namespace-scoped owner")
    else if owner.Namespace != object.Namespace then
      some (Err.Other "cross-namespace owner references are disallowed")
    else none
  else none

/-- Embeds `controllerutil.SetControllerReference` of controller-runtime, the owner-reference
setter that production passes as `setReference`: it validates the owner, refuses an object that
another controller owns, and otherwise upserts the reference to `owner` as the controller of
`object`. -/
def SetControllerReference (owner : QuarksSecret) (object : Secret) : Except Err Secret :=
  match validateOwner owner object with
  | some err => Except.error err
  | none =>
    let ref : OwnerReference := { Kind := "QuarksSecret", Name := owner.Name, Controller := true }
    match object.OwnerReferences.find? (fun o => o.Controller) with
    | some existing =>
      if !referSameObject existing ref then Except.error Err.AlreadyOwned
      else Except.ok { object with OwnerReferences := upsertOwnerRef ref object.OwnerReferences }
    | none =>
      Except.ok { object with OwnerReferences := upsertOwnerRef ref object.OwnerReferences }

/-- The helper `mutate` of `controllerutil`: runs the mutate function and rejects a changed
object key. -/
def mutate (f : Secret → Except Err Secret) (key : NamespacedName) (obj : Secret) :
    Except Err Secret :=
  match f obj with
  | Except.error err => Except.error err
  | Except.ok obj1 =>
    if Secret.key obj1 = key then Except.ok obj1 else Except.error Err.MutateKey

/-- Embeds `controllerutil.CreateOrUpdate` of controller-runtime (a library, not part of this
repository): `Get` reads the stored object into `obj`; when there is none, the mutate function
runs on the object passed in and the result is created; when there is one, the mutate function
runs on the object just read and `Update` is issued only if that changed it. -/
def CreateOrUpdate (obj : Secret) (f : Secret → Except Err Secret) (w : World) :
    (OperationResult × Option Err) × World :=
  let key := Secret.key obj
  match Client.GetSecret key w with
  | (Except.error err, w1) =>
    if !IsNotFound err then ((OperationResult.None, some err), w1)
    else
      match mutate f key obj with
      | Except.error err => ((OperationResult.None, some err), w1)
      | Except.ok obj1 =>
        match Client.CreateSecret obj1 w1 with
        | (some err, w2) => ((OperationResult.None, some err), w2)
        | (none, w2) => ((OperationResult.Created, none), w2)
  | (Except.ok existing, w1) =>
    match mutate f key existing with
    | Except.error err => ((OperationResult.None, some err), w1)
    | Except.ok obj1 =>
      if existing = obj1 then ((OperationResult.None, none), w1)
      else
        match Client.UpdateSecret obj1 w1 with
        | (some err, w2) => ((OperationResult.None, some err), w2)
        | (none, w2) => ((OperationResult.Updated, none), w2)

/-! ## The reconciler -/

/-- Go `ReconcileCopy`: the client is the `World`; `ctx`, `config`, `scheme` and `generator`
carry nothing the copy logic reads. -/
structure ReconcileCopy where
  setReference : QuarksSecret → Secret → Except Err Secret

/-- Go `validateAnnotation` (its `ctx` and `sourceQsec` serve the log only). -/
def validateAnnotation (secretAnnotations : GoMap) (copyOf : String) : Bool :=
  let valid := true
  if GoMap.index secretAnnotations AnnotationCopyOf != copyOf then false else valid

/-- Lines 186-225 of `validateTargetNamespace`: the decision once both lookups are classified. -/
def validateTargetNamespace.verdict (sourceQuarksSecret : QuarksSecret)
    (notFoundQuarksSecret notFoundSecret : Bool)
    (targetQuarksSecret : QuarksSecret) (targetSecret : Secret) :
    Bool × Option QuarksSecret × Option Err :=
  -- If both are absent, we will skip the copying process
  if notFoundSecret && notFoundQuarksSecret then (false, none, none)
  else
    -- If both of them are found, give preference to quarks secret
    let notFoundSecret :=
      if !notFoundSecret && !notFoundQuarksSecret then true else notFoundSecret
    if notFoundSecret then
      let annotations : GoMap := GoMap.orEmpty targetQuarksSecret.Annotations
      if targetQuarksSecret.Spec.SecretType != SecretCopy then (false, none, none)
      else
        ( validateAnnotation annotations (QuarksSecret.GetNamespacedName sourceQuarksSecret),
          some targetQuarksSecret, none)
    else if notFoundQuarksSecret then
      let annotations : GoMap := GoMap.orEmpty targetSecret.Annotations
      ( validateAnnotation annotations (QuarksSecret.GetNamespacedName sourceQuarksSecret),
        none, none)
    else (false, none, none)

/-- Lines 176-184 of `validateTargetNamespace`: the lookup of the target Secret. -/
def validateTargetNamespace.lookupSecret (sourceQuarksSecret : QuarksSecret) (copy : Copy)
    (notFoundQuarksSecret : Bool) (targetQuarksSecret : QuarksSecret) (w : World) :
    (Bool × Option QuarksSecret × Option Err) × World :=
  match Client.GetSecret { Name := copy.Name, Namespace := copy.Namespace } w with
  | (Except.error err, w1) =>
    if IsNotFound err then
      (validateTargetNamespace.verdict sourceQuarksSecret notFoundQuarksSecret true
        targetQuarksSecret Secret.zero, w1)
    else ((false, none, some (Err.Wrap err "could not get target secret")), w1)
  | (Except.ok targetSecret, w1) =>
    (validateTargetNamespace.verdict sourceQuarksSecret notFoundQuarksSecret false
      targetQuarksSecret targetSecret, w1)

/-- Go `validateTargetNamespace`: checks if there is a valid secret or valid quarks secret in
the target namespace.  Returns `(authorized, managing QuarksSecret, error)`. -/
def validateTargetNamespace (sourceQuarksSecret : QuarksSecret) (copy : Copy)
    (_sourceSecret : Option Secret) (w : World) :
    (Bool × Option QuarksSecret × Option Err) × World :=
  match Client.GetQuarksSecret
      { Name := sourceQuarksSecret.Name, Namespace := copy.Namespace } w with
  | (Except.error err, w1) =>
    if IsNotFound err then
      validateTargetNamespace.lookupSecret sourceQuarksSecret copy true QuarksSecret.zero w1
    else ((false, none, some (Err.Wrap err "could not get target quarks secret")), w1)
  | (Except.ok targetQuarksSecret, w1) =>
    validateTargetNamespace.lookupSecret sourceQuarksSecret copy false targetQuarksSecret w1

/-- Go `getSourceSecret`: a source Secret that does not exist is `(nil, nil)`. -/
def getSourceSecret (qsec : QuarksSecret) (w : World) : (Option Secret × Option Err) × World :=
  match Client.GetSecret { Name := qsec.Spec.SecretName, Namespace := qsec.Namespace } w with
  | (Except.error err, w1) =>
    if IsNotFound err then ((none, none), w1)
    else ((none, some (Err.Wrap err "could not fetch source secret")), w1)
  | (Except.ok sourceSecret, w1) => ((some sourceSecret, none), w1)

/-- Go `updateCopySecret`: updates a copied destination Secret through an unstructured object
that carries the name, namespace, labels, annotations and data of `secret`. -/
def updateCopySecret (secret : Secret) (w : World) : Option Err × World :=
  let uncachedSecret : Secret :=
    { Name := secret.Name, Namespace := secret.Namespace, Labels := secret.Labels,
      Annotations := secret.Annotations, OwnerReferences := [], Data := secret.Data }
  match Client.UpdateSecret uncachedSecret w with
  | (some err, w1) => (some (Err.Wrap err "could not update secret"), w1)
  | (none, w1) => (none, w1)

/-- Go `createUpdateCopySecret`: sets the owner and calls `CreateOrUpdate` with the mutate
function `func() error { return nil }`. -/
def createUpdateCopySecret (r : ReconcileCopy) (targetSecret : Secret)
    (targetQuarksSecret : Option QuarksSecret) (w : World) : Option Err × World :=
  let owned : Except Err Secret :=
    match targetQuarksSecret with
    | some tq =>
      match r.setReference tq targetSecret with
      | Except.error err => Except.error (Err.Wrap err "error setting owner for secret")
      | Except.ok s => Except.ok s
    | none => Except.ok targetSecret
  match owned with
  | Except.error err => (some err, w)
  | Except.ok targetSecret =>
    match CreateOrUpdate targetSecret (fun s => Except.ok s) w with
    | ((_, some err), w1) => (some (Err.Wrap err "could not create or update target secret"), w1)
    | ((_, none), w1) => (none, w1)

/-- Lines 114-127 of `handleQuarksSecretCopies`: the replica payload. -/
def handleQuarksSecretCopies.targetSecret (sourceQuarksSecret : QuarksSecret) (copy : Copy)
    (sourceSecret : Secret) : Secret :=
  let targetSecret : Secret :=
    { Secret.zero with
      Name := copy.Name, Namespace := copy.Namespace, Data := sourceSecret.Data,
      Annotations := sourceSecret.Annotations, Labels := sourceSecret.Labels }
  let annotations : GoMap := GoMap.orEmpty targetSecret.Annotations
  let annotations : GoMap :=
    GoMap.assign annotations AnnotationCopyOf (QuarksSecret.GetNamespacedName sourceQuarksSecret)
  { targetSecret with Annotations := annotations }

/-- The body of the loop of `handleQuarksSecretCopies` (lines 97-141): one copy target.
The result is the error the loop would return (`none` to go on). -/
def handleQuarksSecretCopies.body (r : ReconcileCopy) (sourceQuarksSecret : QuarksSecret)
    (copy : Copy) (w : World) : Outcome (Option Err) × World :=
  match getSourceSecret sourceQuarksSecret w with
  | ((_, some err), w1) => (Outcome.ret (some err), w1)
  | ((sourceSecret, none), w1) =>
    match validateTargetNamespace sourceQuarksSecret copy sourceSecret w1 with
    | ((_, _, some err), w2) => (Outcome.ret (some (Err.Wrap err "could not validate")), w2)
    | ((ok, targetQuarksSecret, none), w2) =>
      if ok then
        match sourceSecret with
        | none => (Outcome.panic "invalid memory address or nil pointer dereference", w2)
        | some sourceSecret =>
          let targetSecret :=
            handleQuarksSecretCopies.targetSecret sourceQuarksSecret copy sourceSecret
          match targetQuarksSecret with
          | none =>
            match updateCopySecret targetSecret w2 with
            | (some err, w3) => (Outcome.ret (some err), w3)
            | (none, w3) => (Outcome.ret none, w3)
          | some tq =>
            match createUpdateCopySecret r targetSecret (some tq) w2 with
            | (some err, w3) => (Outcome.ret (some err), w3)
            | (none, w3) => (Outcome.ret none, w3)
      else (Outcome.ret none, w2)

/-- The loop of `handleQuarksSecretCopies` over the copy targets still to be processed. -/
def handleQuarksSecretCopies.loop (r : ReconcileCopy) (sourceQuarksSecret : QuarksSecret) :
    List Copy → World → Outcome (Option Err) × World
  | [], w => (Outcome.ret none, w)
  | copy :: rest, w =>
    match handleQuarksSecretCopies.body r sourceQuarksSecret copy w with
    | (Outcome.ret none, w1) => handleQuarksSecretCopies.loop r sourceQuarksSecret rest w1
    | (Outcome.ret (some err), w1) => (Outcome.ret (some err), w1)
    | (Outcome.panic msg, w1) => (Outcome.panic msg, w1)

/-- Go `handleQuarksSecretCopies`. -/
def handleQuarksSecretCopies (r : ReconcileCopy) (sourceQuarksSecret : QuarksSecret)
    (w : World) : Outcome (Option Err) × World :=
  handleQuarksSecretCopies.loop r sourceQuarksSecret sourceQuarksSecret.Spec.Copies w

/-- Go `updateCopyStatus`: sets `Status.Copied` on the object in hand and writes the status; a
failed write is only logged. -/
def updateCopyStatus (qsec : QuarksSecret) (copyStatus : Bool) (w : World) :
    QuarksSecret × World :=
  let qsec := { qsec with Status := { qsec.Status with Copied := some copyStatus } }
  match Client.StatusUpdate qsec w with
  | ((_, qsec1), w1) => (qsec1, w1)

/-- Go `Reconcile`: sets the copied field in status to false and copies the secrets from the
source namespace to the target namespaces.  The result is the returned `error`. -/
def Reconcile (r : ReconcileCopy) (request : NamespacedName) (w : World) :
    Outcome (Option Err) × World :=
  match Client.GetQuarksSecret request w with
  | (Except.error err, w1) =>
    if IsNotFound err then (Outcome.ret none, w1)
    else (Outcome.ret (some (Err.Wrap err "Error reading quarksSecret")), w1)
  | (Except.ok qsec, w1) =>
    match updateCopyStatus qsec false w1 with
    | (qsec, w2) =>
      match handleQuarksSecretCopies r qsec w2 with
      | (Outcome.panic msg, w3) => (Outcome.panic msg, w3)
      | (Outcome.ret _, w3) =>
        match updateCopyStatus qsec true w3 with
        | (_, w4) => (Outcome.ret none, w4)

/-! ## Notions used to state the properties -/

/-- The managing object of a copy target, in the words of the spec (section 4.1): a
QuarksSecret named like the source in the target namespace wins over the plain Secret named
like the copy, and it must be of type `copy`. -/
inductive ManagingObject where
  | Owned : QuarksSecret → ManagingObject
  | Foreign : Secret → ManagingObject
deriving DecidableEq, Repr

/-- The annotations of the managing object. -/
def ManagingObject.Annotations : ManagingObject → GoMap
  | ManagingObject.Owned q => q.Annotations
  | ManagingObject.Foreign s => s.Annotations

/-- The managing object that the store of `w` holds for `copy`, if any. -/
def managingObject (sourceQuarksSecret : QuarksSecret) (copy : Copy) (w : World) :
    Option ManagingObject :=
  match w.quarksSecrets { Name := sourceQuarksSecret.Name, Namespace := copy.Namespace } with
  | some q => if q.Spec.SecretType = SecretCopy then some (ManagingObject.Owned q) else none
  | none =>
    match w.secrets { Name := copy.Name, Namespace := copy.Namespace } with
    | some s => some (ManagingObject.Foreign s)
    | none => none

/-- The calls issued on the way from `w` to the later world `w1`. -/
def World.callsSince (w w1 : World) : List Call :=
  w1.log.drop w.log.length

/-- The world `w1` is reached from `w` through reads only: both stores are as they were and no
call issued on the way writes a Secret. -/
def World.readsOnly (w w1 : World) : Prop :=
  w1.secrets = w.secrets ∧ w1.quarksSecrets = w.quarksSecrets ∧
    ∃ l, w1.log = w.log ++ l ∧ ∀ c ∈ l, Call.isSecretWrite c = false

/-! ## The objects of the integration test -/

/-- A world whose stores hold the listed objects, with the API calls scheduled by `faults`. -/
def World.ofObjects (secrets : List Secret) (quarksSecrets : List QuarksSecret)
    (faults : List (Option String)) : World :=
  { secrets := fun k => secrets.find? (fun s => decide (Secret.key s = k)),
    quarksSecrets := fun k => quarksSecrets.find? (fun q => decide (QuarksSecret.key q = k)),
    faults := faults,
    log := [] }

/-- The reconciler as `NewCopyReconciler` builds it in production. -/
def Fixture.reconciler : ReconcileCopy :=
  { setReference := SetControllerReference }

/-- The copy target of `DefaultQuarksSecretWithCopy`. -/
def Fixture.copy : Copy :=
  { Name := "generated-secret-copy", Namespace := "test-copy" }

/-- The source QuarksSecret `test.qsec` with one copy target. -/
def Fixture.qsec : QuarksSecret :=
  { Name := "test.qsec", Namespace := "test", Annotations := none,
    Spec := { SecretType := "password", SecretName := "generated-secret",
              Copies := [Fixture.copy] },
    Status := { Generated := some true, Copied := none } }

/-- The user-provided source Secret `generated-secret` holding `password`. -/
def Fixture.passwordSecret (password : String) : Secret :=
  { Name := "generated-secret", Namespace := "test", Labels := none, Annotations := none,
    OwnerReferences := [], Data := some [("password", password)] }

/-- The QuarksSecret of type `copy` that a tenant places in the copy namespace. -/
def Fixture.quarksCopySecret : QuarksSecret :=
  { Name := "test.qsec", Namespace := "test-copy",
    Annotations := some [(AnnotationCopyOf, "test/test.qsec")],
    Spec := { SecretType := "copy", SecretName := "generated-secret-copy", Copies := [] },
    Status := { Generated := none, Copied := none } }

/-- The empty, annotated Secret that a tenant places in the copy namespace. -/
def Fixture.passwordCopySecret : Secret :=
  { Name := "generated-secret-copy", Namespace := "test-copy",
    Labels := some [("quarks.cloudfoundry.org/secret-kind", "generated")],
    Annotations := some [(AnnotationCopyOf, "test/test.qsec")],
    OwnerReferences := [], Data := none }

/-- The replica that an earlier pass left in the copy namespace when the source held
`password`, owned by the copy QuarksSecret. -/
def Fixture.replica (password : String) : Secret :=
  { Name := "generated-secret-copy", Namespace := "test-copy", Labels := none,
    Annotations := some [(AnnotationCopyOf, "test/test.qsec")],
    OwnerReferences := [{ Kind := "QuarksSecret", Name := "test.qsec", Controller := true }],
    Data := some [("password", password)] }

/-- The copy namespace opted in with a plain Secret; the source Secret exists. -/
def Fixture.foreignWorld : World :=
  World.ofObjects [Fixture.passwordSecret "securepassword", Fixture.passwordCopySecret]
    [Fixture.qsec] []

/-- The copy namespace opted in with a QuarksSecret of type `copy`; no replica yet. -/
def Fixture.ownedWorld : World :=
  World.ofObjects [Fixture.passwordSecret "securepassword"]
    [Fixture.qsec, Fixture.quarksCopySecret] []

/-- The copy namespace holds both the QuarksSecret of type `copy` and a plain Secret. -/
def Fixture.bothWorld : World :=
  World.ofObjects [Fixture.passwordSecret "securepassword", Fixture.passwordCopySecret]
    [Fixture.qsec, Fixture.quarksCopySecret] []

/-- A QuarksSecret in the copy namespace with the matching annotation but of type `password`. -/
def Fixture.wrongTypeQuarksSecret : QuarksSecret :=
  { Fixture.quarksCopySecret with
    Spec := { SecretType := "password", SecretName := "generated-secret-copy", Copies := [] } }

/-- The copy namespace holds a QuarksSecret of the wrong type and an annotated plain Secret. -/
def Fixture.wrongTypeWorld : World :=
  World.ofObjects [Fixture.passwordSecret "securepassword", Fixture.passwordCopySecret]
    [Fixture.qsec, Fixture.wrongTypeQuarksSecret] []

/-- The copy namespace did not opt in: it holds neither object. -/
def Fixture.emptyWorld : World :=
  World.ofObjects [Fixture.passwordSecret "securepassword"] [Fixture.qsec] []

/-- The source was rotated to `supersecurepassword` after a pass had created the replica. -/
def Fixture.rotatedWorld : World :=
  World.ofObjects
    [Fixture.passwordSecret "supersecurepassword", Fixture.replica "securepassword"]
    [Fixture.qsec, Fixture.quarksCopySecret] []

/-- The copy namespace opted in with a plain Secret, but the source Secret does not exist. -/
def Fixture.sourcelessWorld : World :=
  World.ofObjects [Fixture.passwordCopySecret] [Fixture.qsec] []

/-- A source QuarksSecret with three copy targets, in the namespaces `a`, `b` and `c`. -/
def Fixture.qsecThree : QuarksSecret :=
  { Fixture.qsec with
    Spec := { SecretType := "password", SecretName := "generated-secret",
              Copies := [{ Name := "generated-secret-copy", Namespace := "a" },
                         { Name := "generated-secret-copy", Namespace := "b" },
                         { Name := "generated-secret-copy", Namespace := "c" }] } }

/-- No namespace opted in, and the fourth API call (the source fetch for the second target)
fails. -/
def Fixture.failingWorld : World :=
  World.ofObjects [Fixture.passwordSecret "securepassword"] [Fixture.qsecThree]
    [none, none, none, some "context deadline exceeded"]

/-- The copy namespace opted in with a QuarksSecret of type `copy`, but the source Secret does
not exist. -/
def Fixture.sourcelessOwnedWorld : World :=
  World.ofObjects [] [Fixture.qsec, Fixture.quarksCopySecret] []

/-- The copy namespace opted in with a plain Secret, and the sixth API call of the pass (the
update of that Secret) runs into the deadline. -/
def Fixture.deadlineWorld : World :=
  World.ofObjects [Fixture.passwordSecret "securepassword", Fixture.passwordCopySecret]
    [Fixture.qsec] [none, none, none, none, none, some "context deadline exceeded"]

/-- The copy namespace opted in with a plain Secret, and the lookup of the target
QuarksSecret (the first call of the validation) fails. -/
def Fixture.refusedWorld : World :=
  World.ofObjects [Fixture.passwordSecret "securepassword", Fixture.passwordCopySecret]
    [Fixture.qsec] [some "connection refused"]

/-- The copy namespace opted in with a plain Secret, and the second API call of the loop body
(the lookup of the target QuarksSecret) fails. -/
def Fixture.refusedLoopWorld : World :=
  World.ofObjects [Fixture.passwordSecret "securepassword", Fixture.passwordCopySecret]
    [Fixture.qsec] [none, some "connection refused"]

/-- A plain Secret that a tenant placed in the namespace `ns` to receive the copy. -/
def Fixture.tenantSecret (ns : String) : Secret :=
  { Name := "generated-secret-copy", Namespace := ns, Labels := none,
    Annotations := some [(AnnotationCopyOf, "test/test.qsec")],
    OwnerReferences := [], Data := none }

/-- The namespaces `a`, `b` and `c` all opted in with a plain Secret; the eighth API call, the
update of the Secret in `b`, runs into the deadline. -/
def Fixture.partialWorld : World :=
  World.ofObjects
    [Fixture.passwordSecret "securepassword", Fixture.tenantSecret "a",
     Fixture.tenantSecret "b", Fixture.tenantSecret "c"]
    [Fixture.qsecThree]
    [none, none, none, none, none, none, none, some "context deadline exceeded"]

/-! ## Properties -/

theorem served_head {w : World} {n : Nat} (h : World.served w (n + 1)) :
    w.faults.head?.join = none := by
  unfold World.served at h
  cases hf : w.faults with
  | nil => rfl
  | cons a t =>
    rw [hf] at h
    have := h a (by simp)
    simp [this]

theorem served_call {w : World} {n : Nat} (h : World.served w (n + 1)) (c : Call) :
    World.served (World.call w c).2 n := by
  unfold World.served at *
  intro f hf
  apply h
  simp only [World.call] at hf
  cases hfa : w.faults with
  | nil => rw [hfa] at hf; simp at hf
  | cons a t =>
    rw [hfa] at hf
    simp at hf
    simp [List.take_succ_cons, hf]

theorem served_mono {w : World} {n m : Nat} (h : World.served w n) (hm : m ≤ n) :
    World.served w m := by
  unfold World.served at *
  intro f hf
  apply h
  exact (List.take_sublist_take_left _ hm).subset hf

theorem getQuarksSecret_served {w : World} {n : Nat} (h : World.served w (n + 1))
    (key : NamespacedName) :
    Client.GetQuarksSecret key w =
      ((match w.quarksSecrets key with
        | none => Except.error Err.NotFound
        | some q => Except.ok q), (World.call w (Call.GetQuarksSecret key)).2) := by
  unfold Client.GetQuarksSecret
  have h1 : (World.call w (Call.GetQuarksSecret key)).1 = none := served_head h
  generalize hc : World.call w (Call.GetQuarksSecret key) = c at *
  obtain ⟨a, w1⟩ := c
  simp at h1
  subst h1
  cases w.quarksSecrets key <;> rfl

theorem getSecret_served {w : World} {n : Nat} (h : World.served w (n + 1))
    (key : NamespacedName) :
    Client.GetSecret key w =
      ((match w.secrets key with
        | none => Except.error Err.NotFound
        | some q => Except.ok q), (World.call w (Call.GetSecret key)).2) := by
  unfold Client.GetSecret
  have h1 : (World.call w (Call.GetSecret key)).1 = none := served_head h
  generalize hc : World.call w (Call.GetSecret key) = c at *
  obtain ⟨a, w1⟩ := c
  simp at h1
  subst h1
  cases w.secrets key <;> rfl

theorem namespacedName_ne_empty (q : QuarksSecret) : QuarksSecret.GetNamespacedName q ≠ "" := by
  intro h
  have := congrArg String.length h
  simp [QuarksSecret.GetNamespacedName, String.length_append] at this
  exact absurd this.1.2 (by decide)

theorem index_eq_iff_lookup (m : GoMap) (k v : String) (hv : v ≠ "") :
    GoMap.index m k = v ↔ GoMap.lookup m k = some v := by
  unfold GoMap.index
  cases h : GoMap.lookup m k with
  | none => simp; exact fun h => hv h.symm
  | some x => simp

theorem validateAnnotation_iff (m : GoMap) (q : QuarksSecret) :
    validateAnnotation m (QuarksSecret.GetNamespacedName q) = true ↔
      GoMap.lookup m AnnotationCopyOf = some (q.Namespace ++ "/" ++ q.Name) := by
  have := index_eq_iff_lookup m AnnotationCopyOf _ (namespacedName_ne_empty q)
  unfold validateAnnotation
  simp only [QuarksSecret.GetNamespacedName] at *
  rw [← this]
  by_cases h : GoMap.index m AnnotationCopyOf = q.Namespace ++ "/" ++ q.Name <;> simp [h]

/-- With both lookups served, `validateTargetNamespace` is its decision applied to what the
store holds. -/
theorem validateTargetNamespace_served (src : QuarksSecret) (copy : Copy) (ss : Option Secret)
    (w : World) (h : World.served w 2) :
    (validateTargetNamespace src copy ss w).1 =
      validateTargetNamespace.verdict src
        (w.quarksSecrets { Name := src.Name, Namespace := copy.Namespace }).isNone
        (w.secrets { Name := copy.Name, Namespace := copy.Namespace }).isNone
        ((w.quarksSecrets { Name := src.Name, Namespace := copy.Namespace }).getD
          QuarksSecret.zero)
        ((w.secrets { Name := copy.Name, Namespace := copy.Namespace }).getD Secret.zero) := by
  have h1 := served_call h (Call.GetQuarksSecret { Name := src.Name, Namespace := copy.Namespace })
  have hs : (World.call w (Call.GetQuarksSecret
      { Name := src.Name, Namespace := copy.Namespace })).2.secrets = w.secrets := rfl
  unfold validateTargetNamespace
  rw [getQuarksSecret_served h]
  cases hq : w.quarksSecrets { Name := src.Name, Namespace := copy.Namespace } <;>
    simp only [IsNotFound, if_true] <;>
    unfold validateTargetNamespace.lookupSecret <;>
    rw [getSecret_served h1, hs] <;>
    cases hsec : w.secrets { Name := copy.Name, Namespace := copy.Namespace } <;>
    simp [IsNotFound]

theorem lookup_orEmpty (m : GoMap) (k : String) :
    GoMap.lookup (GoMap.orEmpty m) k = GoMap.lookup m k := by
  cases m <;> rfl


/-- C1. Exactness of the authorization: when both lookups are served and the store holds a
managing object for the copy target (the QuarksSecret of type copy named like the source, or
the plain Secret when no QuarksSecret of that name exists), `validateTargetNamespace` returns
no error, and it authorizes if and only if the annotation `secret-copy-of` of that object is
present and equal, as a string, to `<sourceNamespace>/<sourceName>`. -/
theorem validateTargetNamespace_authorized_iff (src : QuarksSecret) (copy : Copy)
    (ss : Option Secret) (w : World) (m : ManagingObject)
    (hserved : World.served w 2)
    (hm : managingObject src copy w = some m) :
    (validateTargetNamespace src copy ss w).1.2.2 = none ∧
    ((validateTargetNamespace src copy ss w).1.1 = true ↔
      GoMap.lookup (ManagingObject.Annotations m) AnnotationCopyOf =
        some (src.Namespace ++ "/" ++ src.Name)) := by
  rw [validateTargetNamespace_served src copy ss w hserved]
  unfold managingObject at hm
  cases hq : w.quarksSecrets { Name := src.Name, Namespace := copy.Namespace } with
  | some q =>
    rw [hq] at hm
    by_cases ht : q.Spec.SecretType = SecretCopy
    · simp [ht] at hm
      subst hm
      simp only [validateTargetNamespace.verdict, ManagingObject.Annotations]
      cases w.secrets { Name := copy.Name, Namespace := copy.Namespace } <;>
        simp [ht, validateAnnotation_iff, lookup_orEmpty]
    · simp [ht] at hm
  | none =>
    rw [hq] at hm
    cases hsec : w.secrets { Name := copy.Name, Namespace := copy.Namespace } with
    | none => rw [hsec] at hm; simp at hm
    | some s =>
      rw [hsec] at hm
      simp at hm
      subst hm
      simp only [validateTargetNamespace.verdict, ManagingObject.Annotations]
      simp [validateAnnotation_iff, lookup_orEmpty]

/-- The comparison of `validateAnnotation` is exact: a trailing space, another case or a
missing annotation is not the identity `test/test.qsec`. -/
theorem validateAnnotation_exact :
    validateAnnotation (some [(AnnotationCopyOf, "test/test.qsec")]) "test/test.qsec" = true ∧
    validateAnnotation (some [(AnnotationCopyOf, "test/test.qsec ")]) "test/test.qsec" = false ∧
    validateAnnotation (some [(AnnotationCopyOf, "Test/test.qsec")]) "test/test.qsec" = false ∧
    validateAnnotation (some [("other", "test/test.qsec")]) "test/test.qsec" = false ∧
    validateAnnotation none "test/test.qsec" = false := by
  decide

/-- Precedence in the validation: when both the QuarksSecret named like the source and the plain Secret
named like the copy exist, replacing the plain Secret by any other Secret leaves the result of
`validateTargetNamespace` as it is; an authorized result returns that QuarksSecret as the
managing resource; and a QuarksSecret whose annotation does not match is not authorized,
whatever the plain Secret carries. -/
theorem validateTargetNamespace_prefers_quarksSecret (src : QuarksSecret) (copy : Copy)
    (ss : Option Secret) (w : World) (tq : QuarksSecret) (ts : Secret)
    (hserved : World.served w 2)
    (hq : w.quarksSecrets { Name := src.Name, Namespace := copy.Namespace } = some tq)
    (hs : w.secrets { Name := copy.Name, Namespace := copy.Namespace } = some ts) :
    (∀ ts' : Secret,
      (validateTargetNamespace src copy ss
        { w with secrets :=
            Store.set w.secrets { Name := copy.Name, Namespace := copy.Namespace } ts' }).1 =
      (validateTargetNamespace src copy ss w).1) ∧
    ((validateTargetNamespace src copy ss w).1.1 = true →
      (validateTargetNamespace src copy ss w).1.2.1 = some tq) ∧
    (GoMap.lookup tq.Annotations AnnotationCopyOf ≠ some (src.Namespace ++ "/" ++ src.Name) →
      (validateTargetNamespace src copy ss w).1.1 = false) := by
  refine ⟨?_, ?_, ?_⟩
  · intro ts'
    have hserved' : World.served
        { w with secrets :=
                  Store.set w.secrets { Name := copy.Name, Namespace := copy.Namespace } ts' }
        2 := hserved
    rw [validateTargetNamespace_served src copy ss w hserved,
      validateTargetNamespace_served src copy ss _ hserved']
    simp [hq, hs, Store.set, validateTargetNamespace.verdict]
  · rw [validateTargetNamespace_served src copy ss w hserved]
    simp only [hq, hs, validateTargetNamespace.verdict]
    by_cases ht : tq.Spec.SecretType = SecretCopy <;> simp [ht]
  · intro hne
    rw [validateTargetNamespace_served src copy ss w hserved]
    simp only [hq, hs, validateTargetNamespace.verdict]
    by_cases ht : tq.Spec.SecretType = SecretCopy
    · have := (validateAnnotation_iff (GoMap.orEmpty tq.Annotations) src).not
      rw [lookup_orEmpty] at this
      simp [ht, this.mpr hne]
    · simp [ht]

theorem readsOnly_refl (w : World) : World.readsOnly w w :=
  ⟨rfl, rfl, [], by simp, by simp⟩

theorem readsOnly_trans {w w1 w2 : World} (h1 : World.readsOnly w w1)
    (h2 : World.readsOnly w1 w2) : World.readsOnly w w2 := by
  obtain ⟨a1, b1, l1, c1, d1⟩ := h1
  obtain ⟨a2, b2, l2, c2, d2⟩ := h2
  refine ⟨a2.trans a1, b2.trans b1, l1 ++ l2, ?_, ?_⟩
  · rw [c2, c1, List.append_assoc]
  · intro c hc
    rcases List.mem_append.mp hc with h | h
    · exact d1 c h
    · exact d2 c h

theorem readsOnly_callsSince {w w1 : World} (h : World.readsOnly w w1) :
    ∀ c ∈ World.callsSince w w1, Call.isSecretWrite c = false := by
  obtain ⟨_, _, l, hl, hw⟩ := h
  unfold World.callsSince
  rw [hl, List.drop_left]
  exact hw

theorem getSecret_world (key : NamespacedName) (w : World) :
    (Client.GetSecret key w).2 = (World.call w (Call.GetSecret key)).2 := by
  simp only [Client.GetSecret, World.call]
  cases w.faults.head?.join with
  | some msg => rfl
  | none => cases w.secrets key <;> rfl

theorem getQuarksSecret_world (key : NamespacedName) (w : World) :
    (Client.GetQuarksSecret key w).2 = (World.call w (Call.GetQuarksSecret key)).2 := by
  simp only [Client.GetQuarksSecret, World.call]
  cases w.faults.head?.join with
  | some msg => rfl
  | none => cases w.quarksSecrets key <;> rfl

theorem getSecret_readsOnly (key : NamespacedName) (w : World) :
    World.readsOnly w (Client.GetSecret key w).2 := by
  rw [getSecret_world]
  exact ⟨rfl, rfl, [Call.GetSecret key], rfl, by simp [Call.isSecretWrite]⟩

theorem getQuarksSecret_readsOnly (key : NamespacedName) (w : World) :
    World.readsOnly w (Client.GetQuarksSecret key w).2 := by
  rw [getQuarksSecret_world]
  exact ⟨rfl, rfl, [Call.GetQuarksSecret key], rfl, by simp [Call.isSecretWrite]⟩

theorem getSourceSecret_readsOnly (qsec : QuarksSecret) (w : World) :
    World.readsOnly w (getSourceSecret qsec w).2 := by
  have h := getSecret_readsOnly { Name := qsec.Spec.SecretName, Namespace := qsec.Namespace } w
  unfold getSourceSecret
  generalize Client.GetSecret { Name := qsec.Spec.SecretName, Namespace := qsec.Namespace } w = g
    at h
  obtain ⟨res, w1⟩ := g
  cases res with
  | error err => dsimp only; split <;> exact h
  | ok s => exact h

theorem lookupSecret_readsOnly (src : QuarksSecret) (copy : Copy) (nf : Bool)
    (tq : QuarksSecret) (w : World) :
    World.readsOnly w (validateTargetNamespace.lookupSecret src copy nf tq w).2 := by
  have h := getSecret_readsOnly { Name := copy.Name, Namespace := copy.Namespace } w
  unfold validateTargetNamespace.lookupSecret
  generalize Client.GetSecret { Name := copy.Name, Namespace := copy.Namespace } w = g at h
  obtain ⟨res, w1⟩ := g
  cases res with
  | error err => dsimp only; split <;> exact h
  | ok s => exact h

theorem validateTargetNamespace_readsOnly (src : QuarksSecret) (copy : Copy)
    (ss : Option Secret) (w : World) :
    World.readsOnly w (validateTargetNamespace src copy ss w).2 := by
  have h := getQuarksSecret_readsOnly { Name := src.Name, Namespace := copy.Namespace } w
  unfold validateTargetNamespace
  generalize Client.GetQuarksSecret { Name := src.Name, Namespace := copy.Namespace } w = g at h
  obtain ⟨res, w1⟩ := g
  cases res with
  | error err =>
    dsimp only
    split
    · exact readsOnly_trans h (lookupSecret_readsOnly _ _ _ _ _)
    · exact h
  | ok s => exact readsOnly_trans h (lookupSecret_readsOnly _ _ _ _ _)

/-- A copy target that validation does not authorize is left alone: the loop body only
reads, and it returns (with the validation error, if any). -/
theorem body_unauthorized (r : ReconcileCopy) (src : QuarksSecret) (copy : Copy) (w : World)
    (h : (validateTargetNamespace src copy (getSourceSecret src w).1.1
      (getSourceSecret src w).2).1.1 = false) :
    World.readsOnly w (handleQuarksSecretCopies.body r src copy w).2 ∧
    ∃ e, (handleQuarksSecretCopies.body r src copy w).1 = Outcome.ret e := by
  have h1 := getSourceSecret_readsOnly src w
  have h2 := validateTargetNamespace_readsOnly src copy (getSourceSecret src w).1.1
    (getSourceSecret src w).2
  unfold handleQuarksSecretCopies.body
  generalize getSourceSecret src w = g at h h1 h2
  obtain ⟨⟨ss, e⟩, w1⟩ := g
  cases e with
  | some err => exact ⟨h1, _, rfl⟩
  | none =>
    dsimp only at h h2 ⊢
    generalize validateTargetNamespace src copy ss w1 = v at h h2
    obtain ⟨⟨ok, tq, ve⟩, w2⟩ := v
    dsimp only at h
    subst h
    cases ve with
    | some err => exact ⟨readsOnly_trans h1 h2, _, rfl⟩
    | none => exact ⟨readsOnly_trans h1 h2, _, rfl⟩

theorem getSourceSecret_served {w : World} {n : Nat} (h : World.served w (n + 1))
    (qsec : QuarksSecret) :
    getSourceSecret qsec w =
      ((w.secrets { Name := qsec.Spec.SecretName, Namespace := qsec.Namespace }, none),
        (World.call w (Call.GetSecret
          { Name := qsec.Spec.SecretName, Namespace := qsec.Namespace })).2) := by
  unfold getSourceSecret
  rw [getSecret_served h]
  cases w.secrets { Name := qsec.Spec.SecretName, Namespace := qsec.Namespace } <;>
    simp [IsNotFound]

/-- Whatever the lookups return, a target QuarksSecret of another type is never authorized. -/
theorem validateTargetNamespace_wrong_type (src : QuarksSecret) (copy : Copy)
    (ss : Option Secret) (w : World) (tq : QuarksSecret)
    (hq : w.quarksSecrets { Name := src.Name, Namespace := copy.Namespace } = some tq)
    (ht : tq.Spec.SecretType ≠ SecretCopy) :
    (validateTargetNamespace src copy ss w).1.1 = false := by
  simp only [validateTargetNamespace, Client.GetQuarksSecret, World.call, hq]
  cases w.faults.head?.join with
  | some msg => simp [IsNotFound]
  | none =>
    simp only [validateTargetNamespace.lookupSecret, Client.GetSecret, World.call]
    cases w.faults.tail.head?.join with
    | some msg => simp [IsNotFound]
    | none =>
      cases w.secrets { Name := copy.Name, Namespace := copy.Namespace } <;>
        simp [IsNotFound, validateTargetNamespace.verdict, ht]

/-- C3. Type gate: when the target namespace holds a QuarksSecret named like the source whose
type is not `copy`, `validateTargetNamespace` (lookups served) returns authorized = false, no
managing resource and no error, whatever the annotations say; and the processing of that copy
target, under any schedule of failures, leaves the stored Secrets as they were and issues no
create and no update of a Secret. -/
theorem validateTargetNamespace_type_gate (r : ReconcileCopy) (src : QuarksSecret)
    (copy : Copy) (ss : Option Secret) (w : World) (tq : QuarksSecret)
    (hq : w.quarksSecrets { Name := src.Name, Namespace := copy.Namespace } = some tq)
    (ht : tq.Spec.SecretType ≠ SecretCopy) :
    (World.served w 2 → (validateTargetNamespace src copy ss w).1 = (false, none, none)) ∧
    (handleQuarksSecretCopies.body r src copy w).2.secrets = w.secrets ∧
    (∀ c ∈ World.callsSince w (handleQuarksSecretCopies.body r src copy w).2,
      Call.isSecretWrite c = false) := by
  have hb : World.readsOnly w (handleQuarksSecretCopies.body r src copy w).2 := by
    refine (body_unauthorized r src copy w ?_).1
    apply validateTargetNamespace_wrong_type src copy _ _ tq _ ht
    rw [(getSourceSecret_readsOnly src w).2.1]
    exact hq
  refine ⟨?_, hb.1, readsOnly_callsSince hb⟩
  intro hserved
  rw [validateTargetNamespace_served src copy ss w hserved, hq]
  cases w.secrets { Name := copy.Name, Namespace := copy.Namespace } <;>
    simp [validateTargetNamespace.verdict, ht]

/-- C4. Total absence: when neither the QuarksSecret named like the source nor the Secret
named like the copy exists in the target namespace and the calls are served,
`validateTargetNamespace` returns authorized = false, no managing resource and no error, and
the processing of that copy target returns no error, leaves both stores as they were and
issues no create and no update of a Secret. -/
theorem validateTargetNamespace_neither (r : ReconcileCopy) (src : QuarksSecret)
    (copy : Copy) (ss : Option Secret) (w : World)
    (hq : w.quarksSecrets { Name := src.Name, Namespace := copy.Namespace } = none)
    (hs : w.secrets { Name := copy.Name, Namespace := copy.Namespace } = none)
    (hserved : World.served w 3) :
    (validateTargetNamespace src copy ss w).1 = (false, none, none) ∧
    (handleQuarksSecretCopies.body r src copy w).1 = Outcome.ret none ∧
    (handleQuarksSecretCopies.body r src copy w).2.secrets = w.secrets ∧
    (handleQuarksSecretCopies.body r src copy w).2.quarksSecrets = w.quarksSecrets ∧
    (∀ c ∈ World.callsSince w (handleQuarksSecretCopies.body r src copy w).2,
      Call.isSecretWrite c = false) := by
  have hv : ∀ (ss1 : Option Secret) (w1 : World), World.served w1 2 →
      w1.quarksSecrets = w.quarksSecrets → w1.secrets = w.secrets →
      (validateTargetNamespace src copy ss1 w1).1 = (false, none, none) := by
    intro ss1 w1 h1 e1 e2
    rw [validateTargetNamespace_served src copy ss1 w1 h1, e1, e2, hq, hs]
    simp [validateTargetNamespace.verdict]
  have hsrc := getSourceSecret_served hserved src
  have hv1 := hv (getSourceSecret src w).1.1 (getSourceSecret src w).2
    (by rw [hsrc]; exact served_call hserved _) (by rw [hsrc]; rfl) (by rw [hsrc]; rfl)
  have hb := body_unauthorized r src copy w (by rw [hv1])
  refine ⟨hv ss w (served_mono hserved (by decide)) rfl rfl, ?_, hb.1.1, hb.1.2.1,
    readsOnly_callsSince hb.1⟩
  unfold handleQuarksSecretCopies.body
  rw [hsrc] at hv1 ⊢
  dsimp only at hv1 ⊢
  generalize validateTargetNamespace src copy _ _ = v at hv1
  obtain ⟨res, w2⟩ := v
  dsimp only at hv1
  subst hv1
  rfl

theorem lookup_assign_same (m : GoMap) (k v : String) :
    GoMap.lookup (GoMap.assign m k v) k = some v := by
  cases m <;> simp [GoMap.assign, GoMap.lookup, List.lookup]

theorem lookup_filter_ne (kvs : List (String × String)) (k k1 : String) (h : k1 ≠ k) :
    (kvs.filter (fun kv => kv.1 != k)).lookup k1 = kvs.lookup k1 := by
  induction kvs with
  | nil => rfl
  | cons a t ih =>
    obtain ⟨ak, av⟩ := a
    by_cases hak : ak = k
    · subst hak
      have : (k1 == ak) = false := by simp [h]
      simp [List.filter, List.lookup, this, ih]
    · have hne : (ak != k) = true := by simp [hak]
      simp only [List.filter, hne, List.lookup]
      rw [ih]

theorem lookup_assign_ne (m : GoMap) (k v k1 : String) (h : k1 ≠ k) :
    GoMap.lookup (GoMap.assign m k v) k1 = GoMap.lookup m k1 := by
  have hb : (k1 == k) = false := by simp [h]
  cases m with
  | none => simp [GoMap.assign, GoMap.lookup, List.lookup, hb]
  | some kvs =>
    simp only [GoMap.assign, GoMap.lookup, List.lookup, hb]
    exact lookup_filter_ne kvs k k1 h

/-- C5. The replica payload: it has the name and namespace of the copy target, the data and
the labels of the source Secret, the annotation `secret-copy-of` set to
`<sourceNamespace>/<sourceName>` (also when the source has no annotations or another value
under that key) and every other annotation as the source has it; and for an authorized copy
target with a source Secret, this payload is what `handleQuarksSecretCopies` hands to
`updateCopySecret` (no managing QuarksSecret) or to `createUpdateCopySecret`. -/
theorem targetSecret_payload (r : ReconcileCopy) (src : QuarksSecret) (copy : Copy)
    (ss : Secret) :
    (handleQuarksSecretCopies.targetSecret src copy ss).Name = copy.Name ∧
    (handleQuarksSecretCopies.targetSecret src copy ss).Namespace = copy.Namespace ∧
    (handleQuarksSecretCopies.targetSecret src copy ss).Data = ss.Data ∧
    (handleQuarksSecretCopies.targetSecret src copy ss).Labels = ss.Labels ∧
    GoMap.lookup (handleQuarksSecretCopies.targetSecret src copy ss).Annotations
      AnnotationCopyOf = some (src.Namespace ++ "/" ++ src.Name) ∧
    (∀ k, k ≠ AnnotationCopyOf →
      GoMap.lookup (handleQuarksSecretCopies.targetSecret src copy ss).Annotations k =
        GoMap.lookup ss.Annotations k) ∧
    (∀ (w w1 w2 : World) (tq : Option QuarksSecret),
      getSourceSecret src w = ((some ss, none), w1) →
      validateTargetNamespace src copy (some ss) w1 = ((true, tq, none), w2) →
      handleQuarksSecretCopies.body r src copy w =
        match tq with
        | none =>
          (Outcome.ret
            (updateCopySecret (handleQuarksSecretCopies.targetSecret src copy ss) w2).1,
            (updateCopySecret (handleQuarksSecretCopies.targetSecret src copy ss) w2).2)
        | some q =>
          (Outcome.ret
            (createUpdateCopySecret r (handleQuarksSecretCopies.targetSecret src copy ss)
              (some q) w2).1,
            (createUpdateCopySecret r (handleQuarksSecretCopies.targetSecret src copy ss)
              (some q) w2).2)) := by
  refine ⟨rfl, rfl, rfl, rfl, ?_, ?_, ?_⟩
  · simp only [handleQuarksSecretCopies.targetSecret]
    exact lookup_assign_same _ _ _
  · intro k hk
    simp only [handleQuarksSecretCopies.targetSecret]
    rw [lookup_assign_ne _ _ _ _ hk, lookup_orEmpty]
  · intro w w1 w2 tq h1 h2
    unfold handleQuarksSecretCopies.body
    rw [h1]
    dsimp only
    rw [h2]
    dsimp only
    cases tq with
    | none =>
      simp only [if_true]
      generalize updateCopySecret _ w2 = u
      obtain ⟨e, w3⟩ := u
      cases e <;> rfl
    | some q =>
      simp only [if_true]
      generalize createUpdateCopySecret r _ (some q) w2 = u
      obtain ⟨e, w3⟩ := u
      cases e <;> rfl

/-- What `updateCopySecret` does, by the scheduled outcome and the stored object. -/
theorem updateCopySecret_eq (secret : Secret) (w : World) :
    updateCopySecret secret w =
      match w.faults.head?.join, w.secrets (Secret.key secret) with
      | some msg, _ =>
        (some (Err.Wrap (Err.Other msg) "could not update secret"),
          (World.call w (Call.UpdateSecret { secret with OwnerReferences := [] })).2)
      | none, none =>
        (some (Err.Wrap Err.NotFound "could not update secret"),
          (World.call w (Call.UpdateSecret { secret with OwnerReferences := [] })).2)
      | none, some _ =>
        (none,
          { (World.call w (Call.UpdateSecret { secret with OwnerReferences := [] })).2 with
            secrets := Store.set w.secrets (Secret.key secret)
              { secret with OwnerReferences := [] } }) := by
  simp only [updateCopySecret, Client.UpdateSecret, World.call, Secret.key]
  cases w.faults.head?.join with
  | some msg => rfl
  | none => cases w.secrets { Namespace := secret.Namespace, Name := secret.Name } <;> rfl

/-- C6. Foreign case, update only: `updateCopySecret` on the replica payload issues exactly one
call, an `Update` of an object without owner references; no Secret exists afterwards that did
not exist before and the QuarksSecrets are untouched; when the call is served and the target
Secret exists, no error is returned and the stored Secret then has the data of the source
Secret and no owner reference; when the target Secret is absent, the not-found of the update
comes back as a (wrapped) error and the store is as it was. -/
theorem updateCopySecret_update_only (src : QuarksSecret) (copy : Copy) (ss : Secret)
    (w : World) :
    (∃ u, World.callsSince w
        (updateCopySecret (handleQuarksSecretCopies.targetSecret src copy ss) w).2 =
          [Call.UpdateSecret u] ∧ u.OwnerReferences = []) ∧
    (∀ k, ((updateCopySecret (handleQuarksSecretCopies.targetSecret src copy ss) w).2.secrets
        k).isSome = true → (w.secrets k).isSome = true) ∧
    (updateCopySecret (handleQuarksSecretCopies.targetSecret src copy ss) w).2.quarksSecrets =
      w.quarksSecrets ∧
    (World.served w 1 →
      (w.secrets { Name := copy.Name, Namespace := copy.Namespace }).isSome = true →
      (updateCopySecret (handleQuarksSecretCopies.targetSecret src copy ss) w).1 = none ∧
      ∃ s, (updateCopySecret (handleQuarksSecretCopies.targetSecret src copy ss) w).2.secrets
          { Name := copy.Name, Namespace := copy.Namespace } = some s ∧
        s.Data = ss.Data ∧ s.OwnerReferences = []) ∧
    (World.served w 1 →
      w.secrets { Name := copy.Name, Namespace := copy.Namespace } = none →
      (∃ msg, (updateCopySecret (handleQuarksSecretCopies.targetSecret src copy ss) w).1 =
        some (Err.Wrap Err.NotFound msg)) ∧
      (updateCopySecret (handleQuarksSecretCopies.targetSecret src copy ss) w).2.secrets =
        w.secrets) := by
  have hkey : Secret.key (handleQuarksSecretCopies.targetSecret src copy ss) =
      { Name := copy.Name, Namespace := copy.Namespace } := rfl
  rw [updateCopySecret_eq, hkey]
  refine ⟨?_, ?_, ?_, ?_, ?_⟩
  · refine ⟨{ handleQuarksSecretCopies.targetSecret src copy ss with OwnerReferences := [] },
      ?_, rfl⟩
    cases w.faults.head?.join <;>
      cases w.secrets { Name := copy.Name, Namespace := copy.Namespace } <;>
      simp [World.callsSince, World.call]
  · intro k
    cases w.faults.head?.join <;>
      cases hs : w.secrets { Name := copy.Name, Namespace := copy.Namespace } <;>
      simp only [World.call] <;> try exact id
    intro h
    simp only [Store.set] at h
    by_cases hk : k = { Name := copy.Name, Namespace := copy.Namespace }
    · rw [hk, hs]; rfl
    · simpa [hk] using h
  · cases w.faults.head?.join <;>
      cases w.secrets { Name := copy.Name, Namespace := copy.Namespace } <;> rfl
  · intro hserved hex
    rw [served_head hserved]
    cases hs : w.secrets { Name := copy.Name, Namespace := copy.Namespace } with
    | none => rw [hs] at hex; simp at hex
    | some old =>
      refine ⟨rfl,
        { handleQuarksSecretCopies.targetSecret src copy ss with OwnerReferences := [] },
        ?_, rfl, rfl⟩
      simp [Store.set]
  · intro hserved hs
    rw [served_head hserved, hs]
    exact ⟨⟨_, rfl⟩, rfl⟩

theorem mutate_id (key : NamespacedName) (obj : Secret) :
    mutate (fun s => Except.ok s) key obj =
      if Secret.key obj = key then Except.ok obj else Except.error Err.MutateKey := rfl

theorem createSecret_eq (obj : Secret) (w : World) :
    Client.CreateSecret obj w =
      match w.faults.head?.join, w.secrets (Secret.key obj) with
      | some msg, _ => (some (Err.Other msg), (World.call w (Call.CreateSecret obj)).2)
      | none, some _ => (some Err.AlreadyExists, (World.call w (Call.CreateSecret obj)).2)
      | none, none =>
        (none, { (World.call w (Call.CreateSecret obj)).2 with
                 secrets := Store.set w.secrets (Secret.key obj) obj }) := by
  simp only [Client.CreateSecret, World.call]
  cases w.faults.head?.join with
  | some msg => rfl
  | none => cases w.secrets (Secret.key obj) <;> rfl

/-- With the mutate function that does nothing, `CreateOrUpdate` never changes an object that
is stored: it reports `unchanged` and leaves the store as it was, whatever `obj` carries. -/
theorem CreateOrUpdate_stored (obj x : Secret) (w : World)
    (hx : w.secrets (Secret.key obj) = some x) :
    (CreateOrUpdate obj (fun s => Except.ok s) w).1.1 = OperationResult.None ∧
    (CreateOrUpdate obj (fun s => Except.ok s) w).2.secrets = w.secrets := by
  simp only [CreateOrUpdate, Client.GetSecret, World.call, hx, mutate_id]
  cases w.faults.head?.join with
  | some msg => simp [IsNotFound]
  | none =>
    dsimp only
    by_cases hk : Secret.key x = Secret.key obj <;> simp [hk]

/-- When `CreateOrUpdate` returns no error, an object with the key of `obj` is stored. -/
theorem CreateOrUpdate_ok_stored (obj : Secret) (w : World)
    (h : (CreateOrUpdate obj (fun s => Except.ok s) w).1.2 = none) :
    ∃ x, (CreateOrUpdate obj (fun s => Except.ok s) w).2.secrets (Secret.key obj) = some x := by
  revert h
  simp only [CreateOrUpdate, Client.GetSecret, mutate_id, createSecret_eq]
  simp only [World.call]
  cases w.faults.head?.join with
  | some msg => simp [IsNotFound]
  | none =>
    cases hs : w.secrets (Secret.key obj) with
    | some x =>
      dsimp only
      by_cases hk : Secret.key x = Secret.key obj <;> simp [hk, hs]
    | none =>
      simp only [IsNotFound, if_true, Bool.not_true]
      cases w.faults.tail.head?.join with
      | some msg => simp
      | none => simp [hs, Store.set]

theorem store_set_set {α : Type} (st : NamespacedName → Option α) (key : NamespacedName)
    (v : α) : Store.set (Store.set st key v) key v = Store.set st key v := by
  funext k
  unfold Store.set
  by_cases h : k = key <;> simp [h]

/-- The status write of `updateCopyStatus`: one `StatusUpdate` call carrying the new flag. -/
theorem updateCopyStatus_log (qsec : QuarksSecret) (b : Bool) (w : World) :
    (updateCopyStatus qsec b w).2.log =
      w.log ++ [Call.StatusUpdate
        { qsec with Status := { qsec.Status with Copied := some b } }] := by
  simp only [updateCopyStatus, Client.StatusUpdate, World.call]
  cases w.faults.head?.join with
  | some msg => rfl
  | none =>
    cases w.quarksSecrets (QuarksSecret.key
      { qsec with Status := { qsec.Status with Copied := some b } }) <;> rfl

/-- A served status write stores the flag on the QuarksSecret. -/
theorem updateCopyStatus_stored (qsec stored : QuarksSecret) (b : Bool) (w : World)
    (hserved : World.served w 1)
    (hq : w.quarksSecrets (QuarksSecret.key qsec) = some stored) :
    ((updateCopyStatus qsec b w).2.quarksSecrets (QuarksSecret.key qsec)).map
      (fun q => q.Status.Copied) = some (some b) := by
  have hq1 : w.quarksSecrets (QuarksSecret.key
      { qsec with Status := { qsec.Status with Copied := some b } }) = some stored := hq
  simp only [updateCopyStatus, Client.StatusUpdate, World.call, served_head hserved, hq1]
  simp [Store.set, QuarksSecret.key]

/-- Whenever the destination loop returns, with or without an error, `Reconcile` goes on to
write `copied = true` as its last call and returns no error; `copied = false` is written
right after the QuarksSecret is read. -/
theorem Reconcile_settles_when_loop_returns (r : ReconcileCopy) (request : NamespacedName)
    (w w1 w3 : World) (qsec : QuarksSecret) (e : Option Err)
    (hget : Client.GetQuarksSecret request w = (Except.ok qsec, w1))
    (hloop : handleQuarksSecretCopies r (updateCopyStatus qsec false w1).1
      (updateCopyStatus qsec false w1).2 = (Outcome.ret e, w3)) :
    (updateCopyStatus qsec false w1).2.log =
      w.log ++ [Call.GetQuarksSecret request,
        Call.StatusUpdate { qsec with Status := { qsec.Status with Copied := some false } }] ∧
    (Reconcile r request w).1 = Outcome.ret none ∧
    (Reconcile r request w).2.log =
      w3.log ++ [Call.StatusUpdate
        { (updateCopyStatus qsec false w1).1 with
          Status := { (updateCopyStatus qsec false w1).1.Status with Copied := some true } }] := by
  have hw1 : w1.log = w.log ++ [Call.GetQuarksSecret request] := by
    have hw : w1 = (World.call w (Call.GetQuarksSecret request)).2 := by
      have := getQuarksSecret_world request w
      rw [hget] at this
      exact this
    rw [hw]
    rfl
  refine ⟨?_, ?_, ?_⟩
  · rw [updateCopyStatus_log, hw1]
    simp
  · simp only [Reconcile, hget, hloop]
  · simp only [Reconcile, hget, hloop]
    exact updateCopyStatus_log _ _ _

/-- In the owned case a stored target Secret is never written: whatever the payload carries,
the store of Secrets is as it was. -/
theorem createUpdateCopySecret_never_updates (r : ReconcileCopy) (t x : Secret)
    (tq : QuarksSecret) (w : World)
    (hkey : ∀ t1, r.setReference tq t = Except.ok t1 → Secret.key t1 = Secret.key t)
    (hx : w.secrets (Secret.key t) = some x) :
    (createUpdateCopySecret r t (some tq) w).2.secrets = w.secrets := by
  cases hr : r.setReference tq t with
  | error err => simp only [createUpdateCopySecret, hr]
  | ok t1 =>
    have h := CreateOrUpdate_stored t1 x w (by rw [hkey t1 hr]; exact hx)
    simp only [createUpdateCopySecret, hr]
    generalize CreateOrUpdate t1 (fun s => Except.ok s) w = c at h
    obtain ⟨⟨op, e⟩, w2⟩ := c
    cases e <;> exact h.2

/-- In the owned case an absent target Secret is created from the payload, owned by the
managing QuarksSecret of its namespace. -/
theorem createUpdateCopySecret_creates (src : QuarksSecret) (copy : Copy) (ss : Secret)
    (tq : QuarksSecret) (w : World) (hserved : World.served w 2)
    (hns : tq.Namespace = copy.Namespace)
    (habsent : w.secrets { Name := copy.Name, Namespace := copy.Namespace } = none) :
    (createUpdateCopySecret Fixture.reconciler
      (handleQuarksSecretCopies.targetSecret src copy ss) (some tq) w).1 = none ∧
    ∃ s, (createUpdateCopySecret Fixture.reconciler
        (handleQuarksSecretCopies.targetSecret src copy ss) (some tq) w).2.secrets
          { Name := copy.Name, Namespace := copy.Namespace } = some s ∧
      s.Data = ss.Data ∧
      s.OwnerReferences = [{ Kind := "QuarksSecret", Name := tq.Name, Controller := true }] := by
  have h1 := served_head hserved
  have h2 : w.faults.tail.head?.join = none :=
    served_head (served_call hserved
      (Call.GetSecret { Name := copy.Name, Namespace := copy.Namespace }))
  have hv : validateOwner tq (handleQuarksSecretCopies.targetSecret src copy ss) = none := by
    simp only [validateOwner, handleQuarksSecretCopies.targetSecret, hns]
    by_cases hc : copy.Namespace = "" <;> simp [hc]
  simp only [createUpdateCopySecret, Fixture.reconciler, SetControllerReference, hv]
  simp only [handleQuarksSecretCopies.targetSecret, Secret.zero, List.find?, upsertOwnerRef,
    CreateOrUpdate, Client.GetSecret, World.call, h1, Secret.key, habsent, IsNotFound,
    mutate, Client.CreateSecret, h2]
  simp [Store.set, habsent]


/-- C2. The code at the failing input: the copy namespace holds both the QuarksSecret of type
copy with the matching annotation and the plain Secret named like the copy.  The validation
authorizes and returns the QuarksSecret as the managing resource, the owner-reference setter
accepts it as owner of the payload, and `handleQuarksSecretCopies` returns no error; yet the
stored Secret, the replica, has no owner reference afterwards, and none of the source's
data. -/
theorem handleQuarksSecretCopies_leaves_replica_unowned :
    (validateTargetNamespace Fixture.qsec Fixture.copy
      (some (Fixture.passwordSecret "securepassword")) Fixture.bothWorld).1 =
      (true, some Fixture.quarksCopySecret, none) ∧
    (Fixture.reconciler.setReference Fixture.quarksCopySecret
      (handleQuarksSecretCopies.targetSecret Fixture.qsec Fixture.copy
        (Fixture.passwordSecret "securepassword"))).toOption.map Secret.OwnerReferences =
      some [{ Kind := "QuarksSecret", Name := "test.qsec", Controller := true }] ∧
    (handleQuarksSecretCopies Fixture.reconciler Fixture.qsec Fixture.bothWorld).1 =
      Outcome.ret none ∧
    ((handleQuarksSecretCopies Fixture.reconciler Fixture.qsec Fixture.bothWorld).2.secrets
      { Name := "generated-secret-copy", Namespace := "test-copy" }).map
        Secret.OwnerReferences = some [] ∧
    ((handleQuarksSecretCopies Fixture.reconciler Fixture.qsec Fixture.bothWorld).2.secrets
      { Name := "generated-secret-copy", Namespace := "test-copy" }).map Secret.Data =
      some none := by
  decide

/-- C7. The code at the failing input: the copy namespace holds the QuarksSecret of type copy
with the matching annotation and the replica with password `securepassword`, and the source
Secret now holds `supersecurepassword`.  `createUpdateCopySecret` returns no error and the
stored replica still has `securepassword`; so does a whole run of
`handleQuarksSecretCopies`. -/
theorem createUpdateCopySecret_keeps_stale_data :
    (createUpdateCopySecret Fixture.reconciler
      (handleQuarksSecretCopies.targetSecret Fixture.qsec Fixture.copy
        (Fixture.passwordSecret "supersecurepassword"))
      (some Fixture.quarksCopySecret)
      Fixture.rotatedWorld).1 = none ∧
    ((createUpdateCopySecret Fixture.reconciler
      (handleQuarksSecretCopies.targetSecret Fixture.qsec Fixture.copy
        (Fixture.passwordSecret "supersecurepassword"))
      (some Fixture.quarksCopySecret)
      Fixture.rotatedWorld).2.secrets
        { Name := "generated-secret-copy", Namespace := "test-copy" }).map Secret.Data =
      some (some [("password", "securepassword")]) ∧
    (handleQuarksSecretCopies Fixture.reconciler Fixture.qsec
      Fixture.rotatedWorld).1 = Outcome.ret none ∧
    ((handleQuarksSecretCopies Fixture.reconciler Fixture.qsec
      Fixture.rotatedWorld).2.secrets
        { Name := "generated-secret-copy", Namespace := "test-copy" }).map Secret.Data =
      some (some [("password", "securepassword")]) := by
  decide

/-- C10. The code at the failing input: the source QuarksSecret has one copy target, its
source Secret does not exist, and the copy namespace holds a plain Secret with the matching
annotation.  `Reconcile` reads the QuarksSecret, writes `copied = false`, validates the
target and then panics on the nil source Secret: `copied = true` is never written and the
stored status stays `false`. -/
theorem Reconcile_panics_unsettled :
    (Reconcile Fixture.reconciler { Name := "test.qsec", Namespace := "test" }
      Fixture.sourcelessWorld).1 =
      Outcome.panic "invalid memory address or nil pointer dereference" ∧
    ((Reconcile Fixture.reconciler { Name := "test.qsec", Namespace := "test" }
      Fixture.sourcelessWorld).2.quarksSecrets
        { Name := "test.qsec", Namespace := "test" }).map (fun q => q.Status.Copied) =
      some (some false) ∧
    (Reconcile Fixture.reconciler { Name := "test.qsec", Namespace := "test" }
      Fixture.sourcelessWorld).2.log =
      [Call.GetQuarksSecret { Name := "test.qsec", Namespace := "test" },
       Call.StatusUpdate
         { Fixture.qsec with Status := { Generated := some true, Copied := some false } },
       Call.GetSecret { Name := "generated-secret", Namespace := "test" },
       Call.GetQuarksSecret { Name := "test.qsec", Namespace := "test-copy" },
       Call.GetSecret { Name := "generated-secret-copy", Namespace := "test-copy" }] := by
  decide

theorem createUpdateCopySecret_ok (r : ReconcileCopy) (t t1 : Secret) (tq : QuarksSecret)
    (w : World) (h : r.setReference tq t = Except.ok t1) :
    createUpdateCopySecret r t (some tq) w =
      ((CreateOrUpdate t1 (fun s => Except.ok s) w).1.2.map
          (fun err => Err.Wrap err "could not create or update target secret"),
        (CreateOrUpdate t1 (fun s => Except.ok s) w).2) := by
  simp only [createUpdateCopySecret, h]
  generalize CreateOrUpdate t1 (fun s => Except.ok s) w = c
  obtain ⟨⟨op, e⟩, w1⟩ := c
  cases e <;> rfl

theorem createUpdateCopySecret_error (r : ReconcileCopy) (t : Secret) (tq : QuarksSecret)
    (w : World) (err : Err) (h : r.setReference tq t = Except.error err) :
    createUpdateCopySecret r t (some tq) w =
      (some (Err.Wrap err "error setting owner for secret"), w) := by
  simp only [createUpdateCopySecret, h]

/-- C8. Idempotence of the synchronize step: after a run that returned no error, a second run
with the same payload leaves the store of Secrets exactly as the first run left it, in the
foreign case (`updateCopySecret`) and in the owned case (`createUpdateCopySecret`); in the
owned case the create-or-update of the second run reports `unchanged`. -/
theorem synchronize_idempotent (r : ReconcileCopy) (t : Secret) (tq : QuarksSecret)
    (w : World) :
    ((updateCopySecret t w).1 = none →
      (updateCopySecret t (updateCopySecret t w).2).2.secrets =
        (updateCopySecret t w).2.secrets) ∧
    ((createUpdateCopySecret r t (some tq) w).1 = none →
      (createUpdateCopySecret r t (some tq) (createUpdateCopySecret r t (some tq) w).2).2.secrets
        = (createUpdateCopySecret r t (some tq) w).2.secrets ∧
      ∀ t1, r.setReference tq t = Except.ok t1 →
        OperationResult.toString
          (CreateOrUpdate t1 (fun s => Except.ok s)
            (createUpdateCopySecret r t (some tq) w).2).1.1 = "unchanged") := by
  constructor
  · intro h
    have hstored : ∃ u, (updateCopySecret t w).2.secrets (Secret.key t) = some u ∧
        (updateCopySecret t w).2.secrets =
          Store.set w.secrets (Secret.key t) { t with OwnerReferences := [] } := by
      revert h
      rw [updateCopySecret_eq]
      cases w.faults.head?.join with
      | some msg => simp
      | none =>
        cases w.secrets (Secret.key t) with
        | none => simp
        | some old =>
          intro _
          exact ⟨{ t with OwnerReferences := [] }, by simp [Store.set], rfl⟩
    obtain ⟨u, hu, hset⟩ := hstored
    generalize updateCopySecret t w = first at hu hset
    rw [updateCopySecret_eq, hu]
    cases first.2.faults.head?.join with
    | some msg => rfl
    | none =>
      show Store.set first.2.secrets _ _ = _
      rw [hset, store_set_set]
  · intro h
    cases hr : r.setReference tq t with
    | error err => rw [createUpdateCopySecret_error r t tq w err hr] at h; simp at h
    | ok t1 =>
      rw [createUpdateCopySecret_ok r t t1 tq w hr] at h ⊢
      have hnone : (CreateOrUpdate t1 (fun s => Except.ok s) w).1.2 = none := by
        cases hc : (CreateOrUpdate t1 (fun s => Except.ok s) w).1.2 with
        | none => rfl
        | some e => rw [hc] at h; simp at h
      obtain ⟨x, hx⟩ := CreateOrUpdate_ok_stored t1 w hnone
      dsimp only
      rw [createUpdateCopySecret_ok r t t1 tq _ hr]
      have h2 := CreateOrUpdate_stored t1 x _ hx
      refine ⟨h2.2, ?_⟩
      intro t2 ht2
      have : t2 = t1 := by cases ht2; rfl
      subst this
      rw [h2.1]
      rfl

/-- The loop goes through the copy targets in order: a list in two parts is the first part,
then, if that returned no error, the second part from the world the first one left. -/
theorem loop_append (r : ReconcileCopy) (src : QuarksSecret) (pre post : List Copy)
    (w : World) :
    handleQuarksSecretCopies.loop r src (pre ++ post) w =
      match handleQuarksSecretCopies.loop r src pre w with
      | (Outcome.ret none, w1) => handleQuarksSecretCopies.loop r src post w1
      | other => other := by
  induction pre generalizing w with
  | nil => rfl
  | cons c rest ih =>
    simp only [List.cons_append, handleQuarksSecretCopies.loop]
    generalize handleQuarksSecretCopies.body r src c w = b
    obtain ⟨o, w1⟩ := b
    cases o with
    | panic msg => rfl
    | ret e =>
      cases e with
      | some err => rfl
      | none => exact ih w1

/-- A failed `updateCopySecret` has written nothing. -/
theorem updateCopySecret_error_stores (secret : Secret) (w : World) (err : Err)
    (h : (updateCopySecret secret w).1 = some err) :
    (updateCopySecret secret w).2.secrets = w.secrets ∧
    (updateCopySecret secret w).2.quarksSecrets = w.quarksSecrets := by
  revert h
  rw [updateCopySecret_eq]
  cases w.faults.head?.join with
  | some msg => intro _; exact ⟨rfl, rfl⟩
  | none =>
    cases w.secrets (Secret.key secret) with
    | none => intro _; exact ⟨rfl, rfl⟩
    | some old => intro h; simp at h

/-- A `CreateOrUpdate` that returns an error has written nothing. -/
theorem CreateOrUpdate_error_stores (obj : Secret) (w : World) (err : Err)
    (h : (CreateOrUpdate obj (fun s => Except.ok s) w).1.2 = some err) :
    (CreateOrUpdate obj (fun s => Except.ok s) w).2.secrets = w.secrets ∧
    (CreateOrUpdate obj (fun s => Except.ok s) w).2.quarksSecrets = w.quarksSecrets := by
  revert h
  simp only [CreateOrUpdate, Client.GetSecret, mutate_id, createSecret_eq]
  simp only [World.call]
  cases w.faults.head?.join with
  | some msg => simp [IsNotFound]
  | none =>
    cases hs : w.secrets (Secret.key obj) with
    | some x =>
      dsimp only
      by_cases hk : Secret.key x = Secret.key obj <;> simp [hk]
    | none =>
      simp only [IsNotFound, if_true, Bool.not_true]
      cases w.faults.tail.head?.join with
      | some msg => simp
      | none => simp [hs]

/-- A failed `createUpdateCopySecret` has written nothing. -/
theorem createUpdateCopySecret_error_stores (r : ReconcileCopy) (t : Secret)
    (tq : QuarksSecret) (w : World) (err : Err)
    (h : (createUpdateCopySecret r t (some tq) w).1 = some err) :
    (createUpdateCopySecret r t (some tq) w).2.secrets = w.secrets ∧
    (createUpdateCopySecret r t (some tq) w).2.quarksSecrets = w.quarksSecrets := by
  cases hr : r.setReference tq t with
  | error e => rw [createUpdateCopySecret_error r t tq w e hr]; exact ⟨rfl, rfl⟩
  | ok t1 =>
    rw [createUpdateCopySecret_ok r t t1 tq w hr] at h ⊢
    cases hc : (CreateOrUpdate t1 (fun s => Except.ok s) w).1.2 with
    | none => rw [hc] at h; simp at h
    | some e => exact CreateOrUpdate_error_stores t1 w e hc

/-- Processing a copy target is all or nothing: when the loop body returns an error, whether
from the source fetch, the validation or the write, both stores are as they were before it. -/
theorem body_error_stores (r : ReconcileCopy) (src : QuarksSecret) (copy : Copy)
    (w w2 : World) (err : Err)
    (h : handleQuarksSecretCopies.body r src copy w = (Outcome.ret (some err), w2)) :
    w2.secrets = w.secrets ∧ w2.quarksSecrets = w.quarksSecrets := by
  have h1 := getSourceSecret_readsOnly src w
  have h2 := validateTargetNamespace_readsOnly src copy (getSourceSecret src w).1.1
    (getSourceSecret src w).2
  unfold handleQuarksSecretCopies.body at h
  generalize getSourceSecret src w = g at h h1 h2
  obtain ⟨⟨ss, e⟩, w1⟩ := g
  cases e with
  | some e1 =>
    simp only [Prod.mk.injEq] at h
    rw [← h.2]
    exact ⟨h1.1, h1.2.1⟩
  | none =>
    dsimp only at h h2
    generalize validateTargetNamespace src copy ss w1 = v at h h2
    obtain ⟨⟨ok, tq, ve⟩, wv⟩ := v
    have h12 := readsOnly_trans h1 h2
    cases ve with
    | some e2 =>
      simp only [Prod.mk.injEq] at h
      rw [← h.2]
      exact ⟨h12.1, h12.2.1⟩
    | none =>
      dsimp only at h
      cases ok with
      | false => simp at h
      | true =>
        simp only [if_true] at h
        cases ss with
        | none => simp at h
        | some s =>
          dsimp only at h
          cases tq with
          | none =>
            have hu := updateCopySecret_error_stores
              (handleQuarksSecretCopies.targetSecret src copy s) wv
            generalize updateCopySecret
              (handleQuarksSecretCopies.targetSecret src copy s) wv = u at h hu
            obtain ⟨ue, w3⟩ := u
            cases ue with
            | none => simp at h
            | some e3 =>
              simp only [Prod.mk.injEq] at h
              rw [← h.2]
              have := hu e3 rfl
              exact ⟨this.1.trans h12.1, this.2.trans h12.2.1⟩
          | some q =>
            have hu := createUpdateCopySecret_error_stores r
              (handleQuarksSecretCopies.targetSecret src copy s) q wv
            cases hcu : createUpdateCopySecret r
              (handleQuarksSecretCopies.targetSecret src copy s) (some q) wv with
            | mk ue w3 =>
              rw [hcu] at hu
              simp only [hcu] at h
              cases ue with
              | none => simp at h
              | some e3 =>
                simp only [Prod.mk.injEq] at h
                rw [← h.2]
                have := hu e3 rfl
                exact ⟨this.1.trans h12.1, this.2.trans h12.2.1⟩

theorem readsOnly_log {w w1 : World} (h : World.readsOnly w w1) : w.log <+: w1.log := by
  obtain ⟨_, _, l, hl, _⟩ := h
  exact ⟨l, hl.symm⟩

theorem updateCopySecret_log (secret : Secret) (w : World) :
    w.log <+: (updateCopySecret secret w).2.log := by
  rw [updateCopySecret_eq]
  cases w.faults.head?.join <;> cases w.secrets (Secret.key secret) <;>
    exact ⟨_, rfl⟩

theorem CreateOrUpdate_log (obj : Secret) (w : World) :
    w.log <+: (CreateOrUpdate obj (fun s => Except.ok s) w).2.log := by
  simp only [CreateOrUpdate, Client.GetSecret, mutate_id, createSecret_eq]
  simp only [World.call]
  cases w.faults.head?.join with
  | some msg => simp [IsNotFound]
  | none =>
    cases hs : w.secrets (Secret.key obj) with
    | some x =>
      dsimp only
      by_cases hk : Secret.key x = Secret.key obj <;> simp [hk]
    | none =>
      simp only [IsNotFound, if_true, Bool.not_true]
      cases w.faults.tail.head?.join with
      | some msg => simp
      | none => simp [hs]

theorem createUpdateCopySecret_log (r : ReconcileCopy) (t : Secret) (tq : QuarksSecret)
    (w : World) : w.log <+: (createUpdateCopySecret r t (some tq) w).2.log := by
  cases hr : r.setReference tq t with
  | error e => rw [createUpdateCopySecret_error r t tq w e hr]
  | ok t1 =>
    rw [createUpdateCopySecret_ok r t t1 tq w hr]
    exact CreateOrUpdate_log t1 w

/-- The loop body only adds calls to the log. -/
theorem body_log (r : ReconcileCopy) (src : QuarksSecret) (copy : Copy) (w : World) :
    w.log <+: (handleQuarksSecretCopies.body r src copy w).2.log := by
  have h1 := readsOnly_log (getSourceSecret_readsOnly src w)
  have h2 := readsOnly_log (validateTargetNamespace_readsOnly src copy
    (getSourceSecret src w).1.1 (getSourceSecret src w).2)
  unfold handleQuarksSecretCopies.body
  generalize getSourceSecret src w = g at h1 h2
  obtain ⟨⟨ss, e⟩, w1⟩ := g
  cases e with
  | some e1 => exact h1
  | none =>
    dsimp only at h2 ⊢
    generalize validateTargetNamespace src copy ss w1 = v at h2
    obtain ⟨⟨ok, tq, ve⟩, wv⟩ := v
    have h12 := h1.trans h2
    cases ve with
    | some e2 => exact h12
    | none =>
      dsimp only
      cases ok with
      | false => exact h12
      | true =>
        simp only [if_true]
        cases ss with
        | none => exact h12
        | some s =>
          dsimp only
          cases tq with
          | none =>
            have hu := updateCopySecret_log
              (handleQuarksSecretCopies.targetSecret src copy s) wv
            cases hcu : updateCopySecret
              (handleQuarksSecretCopies.targetSecret src copy s) wv with
            | mk ue w3 =>
              rw [hcu] at hu
              cases ue <;> exact h12.trans hu
          | some q =>
            have hu := createUpdateCopySecret_log r
              (handleQuarksSecretCopies.targetSecret src copy s) q wv
            cases hcu : createUpdateCopySecret r
              (handleQuarksSecretCopies.targetSecret src copy s) (some q) wv with
            | mk ue w3 =>
              rw [hcu] at hu
              simp only [hcu]
              cases ue <;> exact h12.trans hu

/-- The loop only adds calls to the log. -/
theorem loop_log (r : ReconcileCopy) (src : QuarksSecret) (copies : List Copy) (w : World) :
    w.log <+: (handleQuarksSecretCopies.loop r src copies w).2.log := by
  induction copies generalizing w with
  | nil => exact List.prefix_refl _
  | cons c rest ih =>
    have hb := body_log r src c w
    simp only [handleQuarksSecretCopies.loop]
    generalize handleQuarksSecretCopies.body r src c w = b at hb
    obtain ⟨o, w1⟩ := b
    cases o with
    | panic msg => exact hb
    | ret e =>
      cases e with
      | some err => exact hb
      | none => exact hb.trans (ih w1)

theorem callsSince_append {w w1 w2 : World} (h1 : w.log <+: w1.log) (h2 : w1.log <+: w2.log) :
    World.callsSince w w2 = World.callsSince w w1 ++ World.callsSince w1 w2 := by
  obtain ⟨a, ha⟩ := h1
  obtain ⟨b, hb⟩ := h2
  unfold World.callsSince
  rw [← hb, ← ha, List.append_assoc, List.drop_left, List.drop_left,
    ← List.append_assoc, List.drop_left]

/-- C9. Fail fast, in order: if the copy targets are `pre ++ copy :: post`, the targets of
`pre` were processed in order without error, leaving the world `w1`, and processing `copy`
from `w1` returns the error `err` (from the source fetch, the validation or the write) in the
world `w2`, then `handleQuarksSecretCopies` returns `err` at once, in exactly that world `w2`;
both stores are then as the targets of `pre` left them, so their writes stay and the failing
target has written nothing; and the calls of the whole run are the calls made for `pre`
followed by the calls made for `copy`, with none for `post`. -/
theorem handleQuarksSecretCopies_fail_fast (r : ReconcileCopy) (src : QuarksSecret)
    (pre post : List Copy) (copy : Copy) (w w1 w2 : World) (err : Err)
    (hcopies : src.Spec.Copies = pre ++ copy :: post)
    (hpre : handleQuarksSecretCopies.loop r src pre w = (Outcome.ret none, w1))
    (hcopy : handleQuarksSecretCopies.body r src copy w1 = (Outcome.ret (some err), w2)) :
    handleQuarksSecretCopies r src w = (Outcome.ret (some err), w2) ∧
    w2.secrets = w1.secrets ∧ w2.quarksSecrets = w1.quarksSecrets ∧
    World.callsSince w w2 = World.callsSince w w1 ++ World.callsSince w1 w2 := by
  have hs := body_error_stores r src copy w1 w2 err hcopy
  have hl1 : w.log <+: w1.log := by
    have := loop_log r src pre w
    rw [hpre] at this
    exact this
  have hl2 : w1.log <+: w2.log := by
    have := body_log r src copy w1
    rw [hcopy] at this
    exact this
  refine ⟨?_, hs.1, hs.2, callsSince_append hl1 hl2⟩
  unfold handleQuarksSecretCopies
  rw [hcopies, loop_append, hpre]
  simp only [handleQuarksSecretCopies.loop, hcopy]

/-- An authorized copy target with no source Secret makes the loop body panic: the payload is
built from the nil source. -/
theorem body_panics_without_source (r : ReconcileCopy) (src : QuarksSecret) (copy : Copy)
    (w : World)
    (hsrc : (getSourceSecret src w).1 = (none, none))
    (hauth : (validateTargetNamespace src copy none (getSourceSecret src w).2).1.1 = true)
    (herr : (validateTargetNamespace src copy none (getSourceSecret src w).2).1.2.2 = none) :
    (handleQuarksSecretCopies.body r src copy w).1 =
      Outcome.panic "invalid memory address or nil pointer dereference" := by
  unfold handleQuarksSecretCopies.body
  generalize getSourceSecret src w = g at hsrc hauth herr
  obtain ⟨⟨ss, e⟩, w1⟩ := g
  simp only [Prod.mk.injEq] at hsrc
  obtain ⟨h1, h2⟩ := hsrc
  subst h1 h2
  dsimp only at hauth herr ⊢
  generalize validateTargetNamespace src copy none w1 = v at hauth herr
  obtain ⟨⟨ok, tq, ve⟩, w2⟩ := v
  dsimp only at hauth herr
  subst hauth herr
  rfl

/-- C11. The code at the failing input: the source QuarksSecret declares one copy target, the
source Secret does not exist (`getSourceSecret` returns no Secret and no error), and the copy
namespace holds a QuarksSecret of type copy with the matching annotation.
`handleQuarksSecretCopies` panics on the nil source Secret, so does `Reconcile`, and the stored
status does not end with `copied = true`. -/
theorem Reconcile_panics_without_source :
    (getSourceSecret Fixture.qsec Fixture.sourcelessOwnedWorld).1 = (none, none) ∧
    (handleQuarksSecretCopies Fixture.reconciler Fixture.qsec
      Fixture.sourcelessOwnedWorld).1 =
      Outcome.panic "invalid memory address or nil pointer dereference" ∧
    (Reconcile Fixture.reconciler { Name := "test.qsec", Namespace := "test" }
      Fixture.sourcelessOwnedWorld).1 =
      Outcome.panic "invalid memory address or nil pointer dereference" ∧
    ((Reconcile Fixture.reconciler { Name := "test.qsec", Namespace := "test" }
      Fixture.sourcelessOwnedWorld).2.quarksSecrets
        { Name := "test.qsec", Namespace := "test" }).map (fun q => q.Status.Copied) ≠
      some (some true) := by
  decide

/-- C12 fails at the test objects when the update of the target Secret runs into the deadline:
`handleQuarksSecretCopies` returns the error, and `Reconcile` does not return any error. -/
theorem Reconcile_surfaces_error_counterexample :
    (handleQuarksSecretCopies Fixture.reconciler
      (updateCopyStatus Fixture.qsec false
        (Client.GetQuarksSecret { Name := "test.qsec", Namespace := "test" }
          Fixture.deadlineWorld).2).1
      (updateCopyStatus Fixture.qsec false
        (Client.GetQuarksSecret { Name := "test.qsec", Namespace := "test" }
          Fixture.deadlineWorld).2).2).1 =
      Outcome.ret (some (Err.Wrap (Err.Other "context deadline exceeded")
        "could not update secret")) ∧
    ¬ ∃ err, (Reconcile Fixture.reconciler { Name := "test.qsec", Namespace := "test" }
      Fixture.deadlineWorld).1 = Outcome.ret (some err) := by
  refine ⟨by decide, ?_⟩
  have h : (Reconcile Fixture.reconciler { Name := "test.qsec", Namespace := "test" }
      Fixture.deadlineWorld).1 = Outcome.ret none := by decide
  rw [h]
  simp

/-- C12, amended. When the owning QuarksSecret is read and `handleQuarksSecretCopies` returns
an error, `Reconcile` does not return it: it goes on from the world the loop left, issues the
status write with `copied = true` as its only further call, and returns a nil error. -/
theorem Reconcile_returns_nil_on_loop_error (r : ReconcileCopy) (request : NamespacedName)
    (w w1 w3 : World) (qsec : QuarksSecret) (err : Err)
    (hget : Client.GetQuarksSecret request w = (Except.ok qsec, w1))
    (hloop : handleQuarksSecretCopies r (updateCopyStatus qsec false w1).1
      (updateCopyStatus qsec false w1).2 = (Outcome.ret (some err), w3)) :
    Reconcile r request w =
      (Outcome.ret none, (updateCopyStatus (updateCopyStatus qsec false w1).1 true w3).2) ∧
    World.callsSince w3 (updateCopyStatus (updateCopyStatus qsec false w1).1 true w3).2 =
      [Call.StatusUpdate
        { (updateCopyStatus qsec false w1).1 with
          Status := { (updateCopyStatus qsec false w1).1.Status with Copied := some true } }] := by
  constructor
  · simp only [Reconcile, hget, hloop]
  · unfold World.callsSince
    rw [updateCopyStatus_log, List.drop_left]

theorem verdict_no_error (src : QuarksSecret) (a b : Bool) (tq : QuarksSecret) (ts : Secret) :
    (validateTargetNamespace.verdict src a b tq ts).2.2 = none := by
  by_cases ht : tq.Spec.SecretType = SecretCopy <;> cases a <;> cases b <;>
    simp [validateTargetNamespace.verdict, ht]

/-- A validation that returns an error does not authorize. -/
theorem validateTargetNamespace_error_unauthorized (src : QuarksSecret) (copy : Copy)
    (ss : Option Secret) (w : World) (verr : Err)
    (h : (validateTargetNamespace src copy ss w).1.2.2 = some verr) :
    (validateTargetNamespace src copy ss w).1.1 = false := by
  revert h
  simp only [validateTargetNamespace, Client.GetQuarksSecret, World.call]
  cases w.faults.head?.join with
  | some msg => simp [IsNotFound]
  | none =>
    cases w.quarksSecrets { Name := src.Name, Namespace := copy.Namespace } <;>
    · simp only [validateTargetNamespace.lookupSecret, Client.GetSecret, World.call,
        IsNotFound, if_true]
      cases w.faults.tail.head?.join with
      | some msg => simp [IsNotFound]
      | none =>
        cases w.secrets { Name := copy.Name, Namespace := copy.Namespace } <;>
          simp [IsNotFound, verdict_no_error]

theorem join_head_of_some {l : List (Option String)} {msg : String}
    (h : l.head? = some (some msg)) : l.head?.join = some msg := by
  rw [h]; rfl

/-- C13. Lookup failures: if the lookup of the target QuarksSecret fails with a transport
error, `validateTargetNamespace` returns that error wrapped, with authorized = false and no
managing resource; if that lookup is served (whatever it finds) and the lookup of the target
Secret fails, the same holds for that error; and whenever validation returns an error, the
processing of the copy target returns it (wrapped), leaves the stored Secrets as they were and
issues no create and no update of a Secret. -/
theorem validateTargetNamespace_lookup_error (r : ReconcileCopy) (src : QuarksSecret)
    (copy : Copy) (ss : Option Secret) (w : World) (msg : String) :
    (w.faults.head? = some (some msg) →
      (validateTargetNamespace src copy ss w).1 =
        (false, none, some (Err.Wrap (Err.Other msg) "could not get target quarks secret"))) ∧
    (w.faults.head?.join = none → w.faults.tail.head? = some (some msg) →
      (validateTargetNamespace src copy ss w).1 =
        (false, none, some (Err.Wrap (Err.Other msg) "could not get target secret"))) ∧
    (∀ verr, (getSourceSecret src w).1.2 = none →
      (validateTargetNamespace src copy (getSourceSecret src w).1.1
        (getSourceSecret src w).2).1.2.2 = some verr →
      (handleQuarksSecretCopies.body r src copy w).1 =
        Outcome.ret (some (Err.Wrap verr "could not validate")) ∧
      (handleQuarksSecretCopies.body r src copy w).2.secrets = w.secrets ∧
      ∀ c ∈ World.callsSince w (handleQuarksSecretCopies.body r src copy w).2,
        Call.isSecretWrite c = false) := by
  refine ⟨?_, ?_, ?_⟩
  · intro h
    simp only [validateTargetNamespace, Client.GetQuarksSecret, World.call,
      join_head_of_some h]
    simp [IsNotFound]
  · intro h0 h1
    simp only [validateTargetNamespace, Client.GetQuarksSecret, World.call, h0]
    cases w.quarksSecrets { Name := src.Name, Namespace := copy.Namespace } <;>
    · simp only [validateTargetNamespace.lookupSecret, Client.GetSecret, World.call,
        join_head_of_some h1, IsNotFound, if_true]
      simp
  · intro verr hsrc hv
    have hun := validateTargetNamespace_error_unauthorized src copy _ _ verr hv
    have hb := body_unauthorized r src copy w hun
    refine ⟨?_, hb.1.1, readsOnly_callsSince hb.1⟩
    unfold handleQuarksSecretCopies.body
    generalize getSourceSecret src w = g at hsrc hv
    obtain ⟨⟨s, e⟩, w1⟩ := g
    dsimp only at hsrc hv ⊢
    subst hsrc
    dsimp only
    generalize validateTargetNamespace src copy s w1 = v at hv
    obtain ⟨⟨ok, tq, ve⟩, w2⟩ := v
    dsimp only at hv
    subst hv
    rfl

/-- In the foreign case a served update of an existing target Secret stores the labels of the
source Secret: whatever labels the target carried are replaced. -/
theorem updateCopySecret_labels_from_source (src : QuarksSecret) (copy : Copy) (ss : Secret)
    (w : World) (hserved : World.served w 1)
    (hex : (w.secrets { Name := copy.Name, Namespace := copy.Namespace }).isSome = true) :
    ((updateCopySecret (handleQuarksSecretCopies.targetSecret src copy ss) w).2.secrets
      { Name := copy.Name, Namespace := copy.Namespace }).map Secret.Labels =
      some ss.Labels := by
  have hkey : Secret.key (handleQuarksSecretCopies.targetSecret src copy ss) =
      { Name := copy.Name, Namespace := copy.Namespace } := rfl
  rw [updateCopySecret_eq, hkey, served_head hserved]
  cases hs : w.secrets { Name := copy.Name, Namespace := copy.Namespace } with
  | none => rw [hs] at hex; simp at hex
  | some old => simp [Store.set, handleQuarksSecretCopies.targetSecret]

/-- C14. The code at the input of the test: the source Secret has no labels, the plain Secret
in the copy namespace carries one label and the matching annotation, so the target is
authorized.  After `handleQuarksSecretCopies` (which returns no error) the stored target has the
data of the source, and it has no label left. -/
theorem handleQuarksSecretCopies_drops_destination_label :
    (Fixture.passwordSecret "securepassword").Labels = none ∧
    (Fixture.foreignWorld.secrets { Name := "generated-secret-copy", Namespace := "test-copy" }).map
      (fun s => GoMap.len s.Labels) = some 1 ∧
    (validateTargetNamespace Fixture.qsec Fixture.copy
      (some (Fixture.passwordSecret "securepassword")) Fixture.foreignWorld).1 =
      (true, none, none) ∧
    (handleQuarksSecretCopies Fixture.reconciler Fixture.qsec Fixture.foreignWorld).1 =
      Outcome.ret none ∧
    ((handleQuarksSecretCopies Fixture.reconciler Fixture.qsec Fixture.foreignWorld).2.secrets
      { Name := "generated-secret-copy", Namespace := "test-copy" }).map
      (fun s => GoMap.len s.Labels) = some 0 ∧
    ((handleQuarksSecretCopies Fixture.reconciler Fixture.qsec Fixture.foreignWorld).2.secrets
      { Name := "generated-secret-copy", Namespace := "test-copy" }).map Secret.Data =
      some (Fixture.passwordSecret "securepassword").Data := by
  decide

/-! ## The properties at the objects of the integration test -/

/-- C1 at the plain Secret of the test: the annotation matches and the target is authorized. -/
theorem validateTargetNamespace_authorized_iff_witness :
    World.served Fixture.foreignWorld 2 ∧
    managingObject Fixture.qsec Fixture.copy Fixture.foreignWorld =
      some (ManagingObject.Foreign Fixture.passwordCopySecret) ∧
    (validateTargetNamespace Fixture.qsec Fixture.copy none Fixture.foreignWorld).1.2.2 = none ∧
    ((validateTargetNamespace Fixture.qsec Fixture.copy none Fixture.foreignWorld).1.1 = true ↔
      GoMap.lookup (ManagingObject.Annotations
        (ManagingObject.Foreign Fixture.passwordCopySecret)) AnnotationCopyOf =
        some (Fixture.qsec.Namespace ++ "/" ++ Fixture.qsec.Name)) :=
  ⟨by decide, by decide,
    validateTargetNamespace_authorized_iff Fixture.qsec Fixture.copy none Fixture.foreignWorld
      (ManagingObject.Foreign Fixture.passwordCopySecret) (by decide) (by decide)⟩

/-- Precedence in the validation at the test objects, with both a QuarksSecret and a plain
Secret in the copy namespace. -/
theorem validateTargetNamespace_prefers_quarksSecret_witness :
    World.served Fixture.bothWorld 2 ∧
    Fixture.bothWorld.quarksSecrets
      { Name := Fixture.qsec.Name, Namespace := Fixture.copy.Namespace } =
        some Fixture.quarksCopySecret ∧
    Fixture.bothWorld.secrets
      { Name := Fixture.copy.Name, Namespace := Fixture.copy.Namespace } =
        some Fixture.passwordCopySecret ∧
    ((validateTargetNamespace Fixture.qsec Fixture.copy none Fixture.bothWorld).1.1 = true →
      (validateTargetNamespace Fixture.qsec Fixture.copy none Fixture.bothWorld).1.2.1 =
        some Fixture.quarksCopySecret) :=
  ⟨by decide, by decide, by decide,
    (validateTargetNamespace_prefers_quarksSecret Fixture.qsec Fixture.copy none
      Fixture.bothWorld Fixture.quarksCopySecret Fixture.passwordCopySecret
      (by decide) (by decide) (by decide)).2.1⟩

/-- C3 at a QuarksSecret of type `password` that carries the matching annotation. -/
theorem validateTargetNamespace_type_gate_witness :
    Fixture.wrongTypeWorld.quarksSecrets
      { Name := Fixture.qsec.Name, Namespace := Fixture.copy.Namespace } =
        some Fixture.wrongTypeQuarksSecret ∧
    Fixture.wrongTypeQuarksSecret.Spec.SecretType ≠ SecretCopy ∧
    World.served Fixture.wrongTypeWorld 2 ∧
    (validateTargetNamespace Fixture.qsec Fixture.copy none Fixture.wrongTypeWorld).1 =
      (false, none, none) ∧
    (handleQuarksSecretCopies.body Fixture.reconciler Fixture.qsec Fixture.copy
      Fixture.wrongTypeWorld).2.secrets = Fixture.wrongTypeWorld.secrets :=
  ⟨by decide, by decide, by decide,
    (validateTargetNamespace_type_gate Fixture.reconciler Fixture.qsec Fixture.copy none
      Fixture.wrongTypeWorld Fixture.wrongTypeQuarksSecret (by decide) (by decide)).1
      (by decide),
    (validateTargetNamespace_type_gate Fixture.reconciler Fixture.qsec Fixture.copy none
      Fixture.wrongTypeWorld Fixture.wrongTypeQuarksSecret (by decide) (by decide)).2.1⟩

/-- C4 at a copy namespace that holds neither object. -/
theorem validateTargetNamespace_neither_witness :
    Fixture.emptyWorld.quarksSecrets
      { Name := Fixture.qsec.Name, Namespace := Fixture.copy.Namespace } = none ∧
    Fixture.emptyWorld.secrets
      { Name := Fixture.copy.Name, Namespace := Fixture.copy.Namespace } = none ∧
    World.served Fixture.emptyWorld 3 ∧
    (validateTargetNamespace Fixture.qsec Fixture.copy none Fixture.emptyWorld).1 =
      (false, none, none) ∧
    (handleQuarksSecretCopies.body Fixture.reconciler Fixture.qsec Fixture.copy
      Fixture.emptyWorld).1 = Outcome.ret none :=
  ⟨by decide, by decide, by decide,
    (validateTargetNamespace_neither Fixture.reconciler Fixture.qsec Fixture.copy none
      Fixture.emptyWorld (by decide) (by decide) (by decide)).1,
    (validateTargetNamespace_neither Fixture.reconciler Fixture.qsec Fixture.copy none
      Fixture.emptyWorld (by decide) (by decide) (by decide)).2.1⟩

/-- C5 at the test objects: the authorized plain Secret receives the payload through
`updateCopySecret`. -/
theorem targetSecret_payload_witness :
    getSourceSecret Fixture.qsec Fixture.foreignWorld =
      ((some (Fixture.passwordSecret "securepassword"), none),
        (getSourceSecret Fixture.qsec Fixture.foreignWorld).2) ∧
    validateTargetNamespace Fixture.qsec Fixture.copy
        (some (Fixture.passwordSecret "securepassword"))
        (getSourceSecret Fixture.qsec Fixture.foreignWorld).2 =
      ((true, none, none),
        (validateTargetNamespace Fixture.qsec Fixture.copy
          (some (Fixture.passwordSecret "securepassword"))
          (getSourceSecret Fixture.qsec Fixture.foreignWorld).2).2) ∧
    handleQuarksSecretCopies.body Fixture.reconciler Fixture.qsec Fixture.copy
        Fixture.foreignWorld =
      (Outcome.ret
        (updateCopySecret
          (handleQuarksSecretCopies.targetSecret Fixture.qsec Fixture.copy
            (Fixture.passwordSecret "securepassword"))
          (validateTargetNamespace Fixture.qsec Fixture.copy
            (some (Fixture.passwordSecret "securepassword"))
            (getSourceSecret Fixture.qsec Fixture.foreignWorld).2).2).1,
        (updateCopySecret
          (handleQuarksSecretCopies.targetSecret Fixture.qsec Fixture.copy
            (Fixture.passwordSecret "securepassword"))
          (validateTargetNamespace Fixture.qsec Fixture.copy
            (some (Fixture.passwordSecret "securepassword"))
            (getSourceSecret Fixture.qsec Fixture.foreignWorld).2).2).2) :=
  ⟨rfl, rfl,
    (targetSecret_payload Fixture.reconciler Fixture.qsec Fixture.copy
      (Fixture.passwordSecret "securepassword")).2.2.2.2.2.2 Fixture.foreignWorld _ _ none
      rfl rfl⟩

/-- C6 at the empty annotated Secret of the test: after the update it holds the password. -/
theorem updateCopySecret_update_only_witness :
    World.served Fixture.foreignWorld 1 ∧
    (Fixture.foreignWorld.secrets
      { Name := Fixture.copy.Name, Namespace := Fixture.copy.Namespace }).isSome = true ∧
    (updateCopySecret
      (handleQuarksSecretCopies.targetSecret Fixture.qsec Fixture.copy
        (Fixture.passwordSecret "securepassword")) Fixture.foreignWorld).1 = none ∧
    ∃ s, (updateCopySecret
        (handleQuarksSecretCopies.targetSecret Fixture.qsec Fixture.copy
          (Fixture.passwordSecret "securepassword")) Fixture.foreignWorld).2.secrets
          { Name := Fixture.copy.Name, Namespace := Fixture.copy.Namespace } = some s ∧
      s.Data = (Fixture.passwordSecret "securepassword").Data ∧ s.OwnerReferences = [] :=
  ⟨by decide, by decide,
    (updateCopySecret_update_only Fixture.qsec Fixture.copy
      (Fixture.passwordSecret "securepassword") Fixture.foreignWorld).2.2.2.1
      (by decide) (by decide)⟩

/-- C8 at the test objects: the plain Secret is updated twice, the owned replica is created
and then found unchanged. -/
theorem synchronize_idempotent_witness :
    (updateCopySecret
      (handleQuarksSecretCopies.targetSecret Fixture.qsec Fixture.copy
        (Fixture.passwordSecret "securepassword")) Fixture.foreignWorld).1 = none ∧
    (updateCopySecret
      (handleQuarksSecretCopies.targetSecret Fixture.qsec Fixture.copy
        (Fixture.passwordSecret "securepassword"))
      (updateCopySecret
        (handleQuarksSecretCopies.targetSecret Fixture.qsec Fixture.copy
          (Fixture.passwordSecret "securepassword")) Fixture.foreignWorld).2).2.secrets =
      (updateCopySecret
        (handleQuarksSecretCopies.targetSecret Fixture.qsec Fixture.copy
          (Fixture.passwordSecret "securepassword")) Fixture.foreignWorld).2.secrets ∧
    (createUpdateCopySecret Fixture.reconciler
      (handleQuarksSecretCopies.targetSecret Fixture.qsec Fixture.copy
        (Fixture.passwordSecret "securepassword"))
      (some Fixture.quarksCopySecret) Fixture.ownedWorld).1 = none ∧
    (createUpdateCopySecret Fixture.reconciler
      (handleQuarksSecretCopies.targetSecret Fixture.qsec Fixture.copy
        (Fixture.passwordSecret "securepassword"))
      (some Fixture.quarksCopySecret)
      (createUpdateCopySecret Fixture.reconciler
        (handleQuarksSecretCopies.targetSecret Fixture.qsec Fixture.copy
          (Fixture.passwordSecret "securepassword"))
        (some Fixture.quarksCopySecret) Fixture.ownedWorld).2).2.secrets =
      (createUpdateCopySecret Fixture.reconciler
        (handleQuarksSecretCopies.targetSecret Fixture.qsec Fixture.copy
          (Fixture.passwordSecret "securepassword"))
        (some Fixture.quarksCopySecret) Fixture.ownedWorld).2.secrets :=
  ⟨by decide,
    (synchronize_idempotent Fixture.reconciler
      (handleQuarksSecretCopies.targetSecret Fixture.qsec Fixture.copy
        (Fixture.passwordSecret "securepassword"))
      Fixture.quarksCopySecret Fixture.foreignWorld).1 (by decide),
    by decide,
    ((synchronize_idempotent Fixture.reconciler
      (handleQuarksSecretCopies.targetSecret Fixture.qsec Fixture.copy
        (Fixture.passwordSecret "securepassword"))
      Fixture.quarksCopySecret Fixture.ownedWorld).2 (by decide)).1⟩

/-- The loop at three copy targets of which none opted in, with the deadline expiring on the
source fetch for the second: the error is returned after four calls, none of which touches the
namespace of the third target. -/
theorem handleQuarksSecretCopies_stops_at_source_fetch :
    (handleQuarksSecretCopies Fixture.reconciler Fixture.qsecThree Fixture.failingWorld).1 =
      Outcome.ret (some (Err.Wrap (Err.Other "context deadline exceeded")
        "could not fetch source secret")) ∧
    (handleQuarksSecretCopies Fixture.reconciler Fixture.qsecThree
      Fixture.failingWorld).2.log.length = 4 ∧
    (∀ c ∈ (handleQuarksSecretCopies Fixture.reconciler Fixture.qsecThree
      Fixture.failingWorld).2.log, Call.touches "c" c = false) := by
  decide

/-- C9 at three copy targets that all opted in, with the deadline expiring on the update of the
second: the Secret of the first target has received the password and keeps it, the error of
the second is returned and its Secret is as it was, and no call touches the namespace of the
third. -/
theorem handleQuarksSecretCopies_fail_fast_witness :
    Fixture.qsecThree.Spec.Copies =
      [{ Name := "generated-secret-copy", Namespace := "a" }] ++
        { Name := "generated-secret-copy", Namespace := "b" } ::
          [{ Name := "generated-secret-copy", Namespace := "c" }] ∧
    handleQuarksSecretCopies.loop Fixture.reconciler Fixture.qsecThree
        [{ Name := "generated-secret-copy", Namespace := "a" }] Fixture.partialWorld =
      (Outcome.ret none,
        (handleQuarksSecretCopies.loop Fixture.reconciler Fixture.qsecThree
          [{ Name := "generated-secret-copy", Namespace := "a" }] Fixture.partialWorld).2) ∧
    handleQuarksSecretCopies.body Fixture.reconciler Fixture.qsecThree
        { Name := "generated-secret-copy", Namespace := "b" }
        (handleQuarksSecretCopies.loop Fixture.reconciler Fixture.qsecThree
          [{ Name := "generated-secret-copy", Namespace := "a" }] Fixture.partialWorld).2 =
      (Outcome.ret (some (Err.Wrap (Err.Other "context deadline exceeded")
          "could not update secret")),
        (handleQuarksSecretCopies.body Fixture.reconciler Fixture.qsecThree
          { Name := "generated-secret-copy", Namespace := "b" }
          (handleQuarksSecretCopies.loop Fixture.reconciler Fixture.qsecThree
            [{ Name := "generated-secret-copy", Namespace := "a" }]
            Fixture.partialWorld).2).2) ∧
    (handleQuarksSecretCopies Fixture.reconciler Fixture.qsecThree Fixture.partialWorld).1 =
      Outcome.ret (some (Err.Wrap (Err.Other "context deadline exceeded")
          "could not update secret")) ∧
    ((handleQuarksSecretCopies Fixture.reconciler Fixture.qsecThree
        Fixture.partialWorld).2.secrets
      { Name := "generated-secret-copy", Namespace := "a" }).map Secret.Data =
      some (some [("password", "securepassword")]) ∧
    ((handleQuarksSecretCopies Fixture.reconciler Fixture.qsecThree
        Fixture.partialWorld).2.secrets
      { Name := "generated-secret-copy", Namespace := "b" }).map Secret.Data = some none ∧
    ((handleQuarksSecretCopies Fixture.reconciler Fixture.qsecThree
        Fixture.partialWorld).2.secrets
      { Name := "generated-secret-copy", Namespace := "c" }).map Secret.Data = some none ∧
    (∀ c ∈ (handleQuarksSecretCopies Fixture.reconciler Fixture.qsecThree
        Fixture.partialWorld).2.log, Call.touches "c" c = false) :=
  ⟨rfl, rfl, rfl,
    congrArg Prod.fst
      (handleQuarksSecretCopies_fail_fast Fixture.reconciler Fixture.qsecThree
        [{ Name := "generated-secret-copy", Namespace := "a" }]
        [{ Name := "generated-secret-copy", Namespace := "c" }]
        { Name := "generated-secret-copy", Namespace := "b" }
        Fixture.partialWorld _ _ _ rfl rfl rfl).1,
    by decide, by decide, by decide, by decide⟩

/-- C12, amended, at the test objects with the deadline expiring on the update: `Reconcile`
returns no error. -/
theorem Reconcile_returns_nil_on_loop_error_witness :
    Client.GetQuarksSecret { Name := "test.qsec", Namespace := "test" } Fixture.deadlineWorld =
      (Except.ok Fixture.qsec,
        (Client.GetQuarksSecret { Name := "test.qsec", Namespace := "test" }
          Fixture.deadlineWorld).2) ∧
    handleQuarksSecretCopies Fixture.reconciler
      (updateCopyStatus Fixture.qsec false
        (Client.GetQuarksSecret { Name := "test.qsec", Namespace := "test" }
          Fixture.deadlineWorld).2).1
      (updateCopyStatus Fixture.qsec false
        (Client.GetQuarksSecret { Name := "test.qsec", Namespace := "test" }
          Fixture.deadlineWorld).2).2 =
      (Outcome.ret (some (Err.Wrap (Err.Other "context deadline exceeded")
          "could not update secret")),
        (handleQuarksSecretCopies Fixture.reconciler
          (updateCopyStatus Fixture.qsec false
            (Client.GetQuarksSecret { Name := "test.qsec", Namespace := "test" }
              Fixture.deadlineWorld).2).1
          (updateCopyStatus Fixture.qsec false
            (Client.GetQuarksSecret { Name := "test.qsec", Namespace := "test" }
              Fixture.deadlineWorld).2).2).2) ∧
    (Reconcile Fixture.reconciler { Name := "test.qsec", Namespace := "test" }
      Fixture.deadlineWorld).1 = Outcome.ret none :=
  ⟨rfl, rfl,
    congrArg Prod.fst
      (Reconcile_returns_nil_on_loop_error Fixture.reconciler
        { Name := "test.qsec", Namespace := "test" } Fixture.deadlineWorld _ _ Fixture.qsec
        (Err.Wrap (Err.Other "context deadline exceeded") "could not update secret")
        rfl rfl).1⟩

/-- C13 at the test objects with a refused lookup of the target QuarksSecret, in
`validateTargetNamespace` and in the processing of the copy target. -/
theorem validateTargetNamespace_lookup_error_witness :
    Fixture.refusedWorld.faults.head? = some (some "connection refused") ∧
    (validateTargetNamespace Fixture.qsec Fixture.copy none Fixture.refusedWorld).1 =
      (false, none,
        some (Err.Wrap (Err.Other "connection refused")
          "could not get target quarks secret")) ∧
    (getSourceSecret Fixture.qsec Fixture.refusedLoopWorld).1.2 = none ∧
    (validateTargetNamespace Fixture.qsec Fixture.copy
      (getSourceSecret Fixture.qsec Fixture.refusedLoopWorld).1.1
      (getSourceSecret Fixture.qsec Fixture.refusedLoopWorld).2).1.2.2 =
      some (Err.Wrap (Err.Other "connection refused")
        "could not get target quarks secret") ∧
    (handleQuarksSecretCopies.body Fixture.reconciler Fixture.qsec Fixture.copy
      Fixture.refusedLoopWorld).1 =
      Outcome.ret (some (Err.Wrap
        (Err.Wrap (Err.Other "connection refused") "could not get target quarks secret")
        "could not validate")) :=
  ⟨by decide,
    (validateTargetNamespace_lookup_error Fixture.reconciler Fixture.qsec Fixture.copy none
      Fixture.refusedWorld "connection refused").1 (by decide),
    by decide, by decide,
    ((validateTargetNamespace_lookup_error Fixture.reconciler Fixture.qsec Fixture.copy none
      Fixture.refusedLoopWorld "connection refused").2.2 _ (by decide) (by decide)).1⟩

end quarkssecret
